import Mathlib

/-!
Contract query handler (package `process`).

A shallow embedding of `process/contractQueryHandler.go`: the numeric decoder
`vmValueToUint64Decoder`, the hex argument built by `GetCredits`, and the three
accessors `IsContractPaused`, `GetCreditsPerEGLD` and `GetCredits` over an
injected cache and an injected query transport.

Conventions.
* A Go `uint64` is a `Nat` below `2 ^ 64`; a Go `byte` is a `UInt8`.
* A Go pair `(value, error)` is a Lean pair whose second component is an
  `Option Error`, `none` being the `nil` error.
* A run-time panic (failed type assertion, nil dereference) is the result `none`
  of a handler operation.
* The cache and the transport are interfaces: they are records of functions over
  an explicit state, and every call made through them is appended to a trace.
-/

namespace process

/-! ## Constants of the source file -/

def isPausedFunc : String := "isPaused"
def creditsPerEgldFunc : String := "getCreditsPerEgld"

def keyIsPaused : String := "isPaused"
def keyCreditsPerEgld : String := "creditsPerEgld"

def contractNotFoundStatus : String := "contract not found"
def returnCodeOk : String := "ok"

/-- A Go `error` value, identified with its message. -/
abbrev Error := String

/-! ## The numeric decoder -/

/-- The value computed by `big.NewInt(0).SetBytes(bytes)`: the bytes are consumed from the
first (most significant) to the last, each step shifting the accumulator by one byte. -/
def setBytes (bytes : List UInt8) : Nat :=
  bytes.foldl (fun acc b => acc * 256 + b.toNat) 0

/-- The test `val.IsUint64()` of a non-negative big integer. -/
def isUint64 (val : Nat) : Bool := decide (val < 2 ^ 64)

/-- The conversion `val.Uint64()`: the low 64 bits of the value. -/
def toUint64 (val : Nat) : Nat := val % 2 ^ 64

/-- The error built by `fmt.Errorf("value %s is not a uint64", val.String())`. -/
def errNotUint64 (val : Nat) : Error :=
  "value " ++ toString val ++ " is not a uint64"

/-- The function `vmValueToUint64Decoder` of the source. -/
def vmValueToUint64Decoder (buff : List (List UInt8)) : Nat × Option Error :=
  match buff with
  | [] => (0, none)
  | bytes :: _ =>
    let val := setBytes bytes
    if !isUint64 val then
      (0, some (errNotUint64 val))
    else
      (toUint64 val, none)

/-- Big-endian reading of a byte string, as the specification words it: the byte at
distance `k` from the end weighs `256 ^ k`. -/
def bigEndianValue : List UInt8 → Nat
  | [] => 0
  | b :: bs => b.toNat * 256 ^ bs.length + bigEndianValue bs

/-! ## The hex argument of `GetCredits` -/

/-- The digit loop of `fmt` for base 16 on an unsigned integer: while `u >= 16` the low
digit is written in front of the buffer and `u` is shifted by four bits; the last digit
is written after the loop. The first argument bounds the number of iterations. -/
def fmtHexLoop : Nat → Nat → List Char → List Char
  | 0, u, buf => Nat.digitChar u :: buf
  | fuel + 1, u, buf =>
    if u ≥ 16 then fmtHexLoop fuel (u / 16) (Nat.digitChar (u % 16) :: buf)
    else Nat.digitChar u :: buf

/-- The string `fmt.Sprintf("%x", id)` for a `uint64`: a 64-bit value has at most sixteen
hexadecimal digits, so the loop runs at most fifteen times. -/
def sprintfHex (id : Nat) : String := String.mk (fmtHexLoop 15 id [])

/-- The function `ensureEvenHex` of the source; `len` of a Go string counts bytes. -/
def ensureEvenHex (hex : String) : String :=
  if hex.utf8ByteSize % 2 != 0 then
    "0" ++ hex
  else
    hex

/-- A lowercase hexadecimal digit. -/
def isLowerHexDigit (c : Char) : Bool :=
  ('0' ≤ c && c ≤ '9') || ('a' ≤ c && c ≤ 'f')

/-- The value of one hexadecimal character, as `encoding/hex` reads it. -/
def fromHexChar (c : Char) : Option Nat :=
  if '0' ≤ c ∧ c ≤ '9' then some (c.toNat - '0'.toNat)
  else if 'a' ≤ c ∧ c ≤ 'f' then some (c.toNat - 'a'.toNat + 10)
  else if 'A' ≤ c ∧ c ≤ 'F' then some (c.toNat - 'A'.toNat + 10)
  else none

/-- Hex decoding of a character sequence, two characters per byte; an odd number of
characters or a character that is no hexadecimal digit is rejected. -/
def hexDecodeChars : List Char → Option (List UInt8)
  | [] => some []
  | [_] => none
  | a :: b :: rest =>
    match fromHexChar a, fromHexChar b, hexDecodeChars rest with
    | some hi, some lo, some tl => some (UInt8.ofNat (hi * 16 + lo) :: tl)
    | _, _, _ => none

/-- Hex decoding of a string (`hex.DecodeString`). -/
def hexDecodeString (s : String) : Option (List UInt8) := hexDecodeChars s.data

/-! ## The interfaces the handler consumes -/

/-- A dynamically typed Go value (`interface{}`), as far as the cache needs it. -/
inductive Any where
  | nil
  | bool (b : Bool)
  | uint64 (n : Nat)
  | string (s : String)
  | float64 (bits : Nat)
  deriving DecidableEq

/-- The type assertion `v.(bool)`; `none` is the panic of a failed assertion. -/
def Any.assertBool : Any → Option Bool
  | Any.bool b => some b
  | _ => none

/-- The type assertion `v.(uint64)`; `none` is the panic of a failed assertion. -/
def Any.assertUint64 : Any → Option Nat
  | Any.uint64 n => some n
  | _ => none

/-- The request `data.VmValueRequest`. -/
structure VmValueRequest where
  Address : String
  FuncName : String
  CallerAddr : String
  CallValue : String
  Args : List String
  deriving DecidableEq

/-- The part of `vm.VMOutputApi` the handler reads. -/
structure VMOutputApi where
  ReturnData : List (List UInt8)
  ReturnCode : String
  deriving DecidableEq

/-- The response `data.VmValuesResponseData`; `Data` is a pointer and may be nil. -/
structure VmValuesResponseData where
  Data : Option VMOutputApi
  deriving DecidableEq

/-- The pair `(res, err)` returned by `ExecuteVMQuery`; `res` is a pointer. -/
abbrev QueryOutcome := Option VmValuesResponseData × Option Error

/-- The interface `Cacher` over a cache state `σ`: `Get` returns `(value, found)`. -/
structure Cacher (σ : Type) where
  Get : σ → String → Any × Bool
  Set : σ → String → Any → σ

/-- The interface `BlockchainDataProvider` over a transport state `π`. -/
structure BlockchainDataProvider (π : Type) where
  ExecuteVMQuery : π → VmValueRequest → QueryOutcome × π

/-- The struct `contractQueryHandler`. -/
structure contractQueryHandler (σ π : Type) where
  blockchainDataProvider : BlockchainDataProvider π
  contractBech32Address : String
  cacher : Cacher σ

/-- A call made through one of the two interfaces. -/
inductive Event where
  | cacheGet (key : String)
  | cacheSet (key : String) (value : Any)
  | vmQuery (req : VmValueRequest)
  deriving DecidableEq

/-- The state the handler runs in: the cache, the transport, and the calls made so far. -/
structure World (σ π : Type) where
  cache : σ
  chain : π
  trace : List Event
  deriving DecidableEq

/-- The call `cqh.cacher.Get(key)`. -/
def cacherGet {σ π : Type} (cqh : contractQueryHandler σ π) (w : World σ π) (key : String) :
    (Any × Bool) × World σ π :=
  (cqh.cacher.Get w.cache key, { w with trace := w.trace ++ [Event.cacheGet key] })

/-- The call `cqh.cacher.Set(key, value)`. -/
def cacherSet {σ π : Type} (cqh : contractQueryHandler σ π) (w : World σ π) (key : String)
    (value : Any) : World σ π :=
  { w with cache := cqh.cacher.Set w.cache key value,
           trace := w.trace ++ [Event.cacheSet key value] }

/-- The call `cqh.blockchainDataProvider.ExecuteVMQuery(ctx, req)`. -/
def executeVMQuery {σ π : Type} (cqh : contractQueryHandler σ π) (w : World σ π)
    (req : VmValueRequest) : QueryOutcome × World σ π :=
  let r := cqh.blockchainDataProvider.ExecuteVMQuery w.chain req
  (r.1, { w with chain := r.2, trace := w.trace ++ [Event.vmQuery req] })

/-! ## The accessors -/

/-- The method `IsContractPaused`. The result `none` is a panic. -/
def IsContractPaused {σ π : Type} (cqh : contractQueryHandler σ π) (w : World σ π) :
    Option ((Bool × Option Error) × World σ π) :=
  let (cached, w1) := cacherGet cqh w keyIsPaused
  if cached.2 then
    match cached.1.assertBool with
    | some b => some ((b, none), w1)
    | none => none
  else
    let (out, w2) := executeVMQuery cqh w1
      { Address := cqh.contractBech32Address
        FuncName := isPausedFunc
        CallValue := "0"
        CallerAddr := cqh.contractBech32Address
        Args := [] }
    match out.2 with
    | some err => some ((true, some err), w2)
    | none =>
      match out.1 with
      | none => none
      | some res =>
        match res.Data with
        | none => some ((true, none), w2)
        | some d =>
          if d.ReturnCode == contractNotFoundStatus then
            some ((true, none), w2)
          else if d.ReturnCode != returnCodeOk then
            some ((true, none), w2)
          else
            let isPaused :=
              if d.ReturnData.length == 0 || (d.ReturnData.getD 0 []).length == 0 then
                false
              else
                (d.ReturnData.getD 0 []).getD 0 0 == 1
            let w3 := cacherSet cqh w2 keyIsPaused (Any.bool isPaused)
            some ((isPaused, none), w3)

/-- The method `GetCreditsPerEGLD`. The result `none` is a panic. -/
def GetCreditsPerEGLD {σ π : Type} (cqh : contractQueryHandler σ π) (w : World σ π) :
    Option ((Nat × Option Error) × World σ π) :=
  let (cached, w1) := cacherGet cqh w keyCreditsPerEgld
  if cached.2 then
    match cached.1.assertUint64 with
    | some n => some ((n, none), w1)
    | none => none
  else
    let (out, w2) := executeVMQuery cqh w1
      { Address := cqh.contractBech32Address
        FuncName := creditsPerEgldFunc
        CallValue := "0"
        CallerAddr := cqh.contractBech32Address
        Args := [] }
    match out.2 with
    | some err => some ((0, some err), w2)
    | none =>
      match out.1 with
      | none => none
      | some res =>
        match res.Data with
        | none => none
        | some d =>
          match vmValueToUint64Decoder d.ReturnData with
          | (_, some err) => some ((0, some err), w2)
          | (creditsPerEgld, none) =>
            let w3 := cacherSet cqh w2 keyCreditsPerEgld (Any.uint64 creditsPerEgld)
            some ((creditsPerEgld, none), w3)

/-- The method `GetCredits`. The result `none` is a panic. -/
def GetCredits {σ π : Type} (cqh : contractQueryHandler σ π) (w : World σ π) (id : Nat) :
    Option ((Nat × Option Error) × World σ π) :=
  let (out, w1) := executeVMQuery cqh w
    { Address := cqh.contractBech32Address
      FuncName := "getCredits"
      Args := [ensureEvenHex (sprintfHex id)]
      CallValue := "0"
      CallerAddr := cqh.contractBech32Address }
  match out.2 with
  | some err => some ((0, some err), w1)
  | none =>
    match out.1 with
    | none => none
    | some res =>
      match res.Data with
      | none => none
      | some d => some (vmValueToUint64Decoder d.ReturnData, w1)

/-! ## A concrete cache and concrete transports -/

/-- A cache kept as an association list, the most recent entry first. -/
def listCacher : Cacher (List (String × Any)) where
  Get := fun s key =>
    match s.lookup key with
    | some v => (v, true)
    | none => (Any.nil, false)
  Set := fun s key value => (key, value) :: s

/-- A transport that answers every query with the same outcome and counts the calls. -/
def constProvider (out : QueryOutcome) : BlockchainDataProvider Nat where
  ExecuteVMQuery := fun calls _ => (out, calls + 1)

/-- A handler over the list cache and a constant transport. -/
def sampleHandler (out : QueryOutcome) : contractQueryHandler (List (String × Any)) Nat where
  blockchainDataProvider := constProvider out
  contractBech32Address := "erd1qqqq"
  cacher := listCacher

/-- A world with the given cache content, in which nothing has been called yet. -/
def sampleWorld (cache : List (String × Any)) : World (List (String × Any)) Nat where
  cache := cache
  chain := 0
  trace := []

/-- A successful transport outcome with the given return code and return data. -/
def okOutcome (code : String) (returnData : List (List UInt8)) : QueryOutcome :=
  (some { Data := some { ReturnData := returnData, ReturnCode := code } }, none)

/-! ## Names for the requests and states the statements speak of -/

/-- The request `IsContractPaused` builds. -/
def isPausedRequest {σ π : Type} (cqh : contractQueryHandler σ π) : VmValueRequest :=
  { Address := cqh.contractBech32Address
    FuncName := isPausedFunc
    CallValue := "0"
    CallerAddr := cqh.contractBech32Address
    Args := [] }

/-- The request `GetCreditsPerEGLD` builds. -/
def creditsPerEgldRequest {σ π : Type} (cqh : contractQueryHandler σ π) : VmValueRequest :=
  { Address := cqh.contractBech32Address
    FuncName := creditsPerEgldFunc
    CallValue := "0"
    CallerAddr := cqh.contractBech32Address
    Args := [] }

/-- The world after a `Get` on `key` and nothing else: cache and transport untouched. -/
def afterHit {σ π : Type} (w : World σ π) (key : String) : World σ π :=
  { cache := w.cache, chain := w.chain, trace := w.trace ++ [Event.cacheGet key] }

/-- The world after a `Get` on `key` and one query `req` that left the transport in state
`chain`: the cache is untouched and no `Set` was called. -/
def afterMiss {σ π : Type} (w : World σ π) (key : String) (req : VmValueRequest) (chain : π) :
    World σ π :=
  { cache := w.cache, chain := chain,
    trace := w.trace ++ [Event.cacheGet key, Event.vmQuery req] }

/-- The paused flag as the specification words it: false if the return data is empty or its
first element is empty, otherwise true exactly when the first byte of the first element
is 1. -/
def pausedFlagSpec : List (List UInt8) → Bool
  | [] => false
  | [] :: _ => false
  | (b :: _) :: _ => decide (b = 1)

/-- The request `GetCredits` builds for the identifier `id`. -/
def getCreditsRequest {σ π : Type} (cqh : contractQueryHandler σ π) (id : Nat) :
    VmValueRequest :=
  { Address := cqh.contractBech32Address
    FuncName := "getCredits"
    Args := [ensureEvenHex (sprintfHex id)]
    CallValue := "0"
    CallerAddr := cqh.contractBech32Address }

/-- The queries recorded in a trace, in the order they were issued. -/
def queriesOf : List Event → List VmValueRequest
  | [] => []
  | Event.vmQuery req :: rest => req :: queriesOf rest
  | _ :: rest => queriesOf rest

/-! ## The constructor -/

/-- The function `NewContractQueryHandler` of the source. A nil interface value is `none`,
which is what `check.IfNil` tests. The error value `errNilCache` is declared in a file of
the package that is not among the sources, so it is an argument here. -/
def NewContractQueryHandler {σ π : Type} (errNilCache : Error)
    (blockchainDataProvider : Option (BlockchainDataProvider π))
    (contractBech32Address : String)
    (cacher : Option (Cacher σ)) : Option (contractQueryHandler σ π) × Option Error :=
  match blockchainDataProvider with
  | none => (none, some "nil blockchain data provider")
  | some provider =>
    if contractBech32Address.utf8ByteSize == 0 then
      (none, some "empty contract address")
    else
      match cacher with
      | none => (none, some errNilCache)
      | some c =>
        (some { blockchainDataProvider := provider
                contractBech32Address := contractBech32Address
                cacher := c }, none)

/-! ## The configuration handler -/

/-- Modelled from the spec: the contract handler that `ConfigHandler` composes, declared
outside the given sources. It is the interface of the two accessors `GetConfig` calls,
over a state `ω` of the implementation behind it. -/
structure ContractHandler (ω : Type) where
  IsContractPaused : ω → (Bool × Option Error) × ω
  GetCreditsPerEGLD : ω → (Nat × Option Error) × ω

/-- Modelled from the spec: the struct `configHandler`, declared outside the given sources:
the wallet URL, the explorer URL and the minimum balance stored verbatim, and the
contract handler. The minimum balance is a `float64`, kept as its 64-bit pattern since it
is only stored and handed back. -/
structure configHandler (ω : Type) where
  walletURL : String
  explorerURL : String
  contractHandler : ContractHandler ω
  minimumBalance : Nat

/-- Modelled from the spec: `NewConfigHandler`, declared outside the given sources.
Construction fails when the contract handler is nil; the other three arguments are
stored with no validation. -/
def NewConfigHandler {ω : Type} (walletURL explorerURL : String)
    (contractHandler : Option (ContractHandler ω)) (minimumBalance : Nat) :
    Option (configHandler ω) × Option Error :=
  match contractHandler with
  | none => (none, some "nil contract handler")
  | some h =>
    (some { walletURL := walletURL, explorerURL := explorerURL, contractHandler := h,
            minimumBalance := minimumBalance }, none)

/-- Modelled from the spec: `GetConfig`, declared outside the given sources. It calls
`IsContractPaused` and returns `(nil, error)` at once on an error; then calls
`GetCreditsPerEGLD` and returns `(nil, error)` on an error; otherwise it assembles the
five-field snapshot. A nil snapshot is `none`. -/
def GetConfig {ω : Type} (ch : configHandler ω) (s : ω) :
    (Option (List (String × Any)) × Option Error) × ω :=
  let (paused, s1) := ch.contractHandler.IsContractPaused s
  match paused.2 with
  | some err => ((none, some err), s1)
  | none =>
    let (rate, s2) := ch.contractHandler.GetCreditsPerEGLD s1
    match rate.2 with
    | some err => ((none, some err), s2)
    | none =>
      ((some [("isContractPaused", Any.bool paused.1),
              ("creditsPerEGLD", Any.uint64 rate.1),
              ("walletURL", Any.string ch.walletURL),
              ("explorerURL", Any.string ch.explorerURL),
              ("minimumBalance", Any.float64 ch.minimumBalance)], none), s2)

/-- The contract handler stub of the tests of `GetConfig`: each accessor gives a fixed
answer, and the state is the list of the calls received. -/
def ContractHandlerStub (paused : Bool × Option Error) (rate : Nat × Option Error) :
    ContractHandler (List String) where
  IsContractPaused := fun calls => (paused, calls ++ ["IsContractPaused"])
  GetCreditsPerEGLD := fun calls => (rate, calls ++ ["GetCreditsPerEGLD"])

/-- The bit pattern of the `float64` constant `0.05` of the tests. -/
def float64_0_05 : Nat := 0x3FA999999999999A

/-! ## Sequential runs of the handler -/

/-- One call of a handler operation. -/
inductive Call where
  | isContractPaused
  | getCreditsPerEGLD
  | getCredits (id : Nat)
  deriving DecidableEq

/-- The world one call leaves, its result dropped; `none` if the call panics. -/
def execCall {σ π : Type} (cqh : contractQueryHandler σ π) (w : World σ π) :
    Call → Option (World σ π)
  | Call.isContractPaused => (IsContractPaused cqh w).map Prod.snd
  | Call.getCreditsPerEGLD => (GetCreditsPerEGLD cqh w).map Prod.snd
  | Call.getCredits id => (GetCredits cqh w id).map Prod.snd

/-- A sequential run: the calls are made one after the other, each on the world the
previous one left, and nothing else touches the cache. -/
def runCalls {σ π : Type} (cqh : contractQueryHandler σ π) :
    List Call → World σ π → Option (World σ π)
  | [], w => some w
  | c :: cs, w =>
    match execCall cqh w c with
    | none => none
    | some w1 => runCalls cqh cs w1

/-- The number of `Set` calls on `key` recorded in a trace. -/
def setCount (key : String) : List Event → Nat
  | [] => 0
  | Event.cacheSet k _ :: rest => (if k = key then 1 else 0) + setCount key rest
  | _ :: rest => setCount key rest

/-- A cache that returns the last value `Set` for a key: a `Get` after a `Set` on the same
key finds the value set, and a `Set` does not change what `Get` returns for other keys. -/
def LastSetVisible {σ : Type} (c : Cacher σ) : Prop :=
  (∀ s k v, c.Get (c.Set s k v) k = (v, true))
    ∧ (∀ s k v k', k' ≠ k → c.Get (c.Set s k v) k' = c.Get s k')

/-- The typing predicate on cache states: if `isPaused` is present its value is a boolean,
and if `creditsPerEgld` is present its value is an unsigned 64-bit integer. -/
def WellTyped {σ : Type} (c : Cacher σ) (s : σ) : Prop :=
  ((c.Get s keyIsPaused).2 = true → ∃ b, (c.Get s keyIsPaused).1 = Any.bool b)
    ∧ ((c.Get s keyCreditsPerEgld).2 = true →
        ∃ n, n < 2 ^ 64 ∧ (c.Get s keyCreditsPerEgld).1 = Any.uint64 n)

/-! ### Lemmas on the decoder -/

theorem foldl_bytes_acc (bs : List UInt8) (acc : Nat) :
    bs.foldl (fun a b => a * 256 + b.toNat) acc = acc * 256 ^ bs.length + bigEndianValue bs := by
  induction bs generalizing acc with
  | nil => simp [bigEndianValue]
  | cons b bs ih =>
    simp only [List.foldl_cons, ih, bigEndianValue, List.length_cons]
    ring

theorem setBytes_eq_bigEndianValue (bs : List UInt8) : setBytes bs = bigEndianValue bs := by
  simp [setBytes, foldl_bytes_acc]

theorem bigEndianValue_append (xs ys : List UInt8) :
    bigEndianValue (xs ++ ys) = bigEndianValue xs * 256 ^ ys.length + bigEndianValue ys := by
  induction xs with
  | nil => simp [bigEndianValue]
  | cons x xs ih =>
    rw [List.cons_append, bigEndianValue, bigEndianValue, ih, List.length_append, pow_add]
    ring

theorem bigEndianValue_replicate_zero (k : Nat) : bigEndianValue (List.replicate k 0) = 0 := by
  induction k with
  | zero => rfl
  | succ k ih => simp [List.replicate_succ, bigEndianValue, ih]

theorem vmValueToUint64Decoder_cons (bytes : List UInt8) (rest : List (List UInt8)) :
    vmValueToUint64Decoder (bytes :: rest) =
      if bigEndianValue bytes < 2 ^ 64 then (bigEndianValue bytes, none)
      else (0, some (errNotUint64 (bigEndianValue bytes))) := by
  by_cases h : bigEndianValue bytes < 2 ^ 64
  · rw [if_pos h]
    simp only [vmValueToUint64Decoder, setBytes_eq_bigEndianValue, isUint64, toUint64,
      decide_eq_true h, Bool.not_true, Nat.mod_eq_of_lt h]
    rfl
  · rw [if_neg h]
    simp only [vmValueToUint64Decoder, setBytes_eq_bigEndianValue, isUint64,
      decide_eq_false h, Bool.not_false]
    rfl

/-! ### Lemmas on the hex argument -/

theorem uint8_ofNat_toNat (n : Nat) (h : n < 256) : (UInt8.ofNat n).toNat = n := by
  simp [UInt8.ofNat, UInt8.toNat, Fin.ofNat]
  omega

theorem digitChar_utf8Size : ∀ d, d < 16 → (Nat.digitChar d).utf8Size = 1 := by decide

theorem digitChar_isLowerHexDigit : ∀ d, d < 16 → isLowerHexDigit (Nat.digitChar d) = true := by
  decide

theorem digitChar_fromHexChar : ∀ d, d < 16 → fromHexChar (Nat.digitChar d) = some d := by
  decide

theorem fmtHexLoop_buf (fuel u : Nat) (buf : List Char) :
    fmtHexLoop fuel u buf = fmtHexLoop fuel u [] ++ buf := by
  induction fuel generalizing u buf with
  | zero => simp [fmtHexLoop]
  | succ fuel ih =>
    by_cases h : u ≥ 16
    · simp only [fmtHexLoop, if_pos h]
      rw [ih (u / 16) (Nat.digitChar (u % 16) :: buf), ih (u / 16) [Nat.digitChar (u % 16)]]
      simp
    · simp [fmtHexLoop, if_neg h]

/-- The digits written by the loop: a non-empty list of values below sixteen whose
base-16 reading, most significant first, is the number formatted. -/
theorem fmtHexLoop_digits (fuel : Nat) : ∀ u, u < 16 ^ (fuel + 1) →
    ∃ ds : List Nat, ds ≠ [] ∧ (∀ d ∈ ds, d < 16) ∧
      fmtHexLoop fuel u [] = ds.map Nat.digitChar ∧
      ds.foldl (fun a d => a * 16 + d) 0 = u := by
  induction fuel with
  | zero =>
    intro u hu
    refine ⟨[u], by simp, ?_, by simp [fmtHexLoop], by simp⟩
    intro d hd
    simp at hd
    omega
  | succ fuel ih =>
    intro u hu
    by_cases h : u ≥ 16
    · have hdiv : u / 16 < 16 ^ (fuel + 1) := by
        rw [Nat.div_lt_iff_lt_mul (by norm_num)]
        rw [pow_succ] at hu
        exact hu
      obtain ⟨ds, _, hlt, hfmt, hval⟩ := ih (u / 16) hdiv
      refine ⟨ds ++ [u % 16], by simp, ?_, ?_, ?_⟩
      · intro d hd
        rcases List.mem_append.mp hd with hd | hd
        · exact hlt d hd
        · simp at hd
          omega
      · simp only [fmtHexLoop, if_pos h]
        rw [fmtHexLoop_buf, hfmt]
        simp
      · rw [List.foldl_append, hval]
        simp only [List.foldl_cons, List.foldl_nil]
        omega
    · refine ⟨[u], by simp, ?_, by simp [fmtHexLoop, if_neg h], by simp⟩
      intro d hd
      simp at hd
      omega

theorem utf8ByteSize_digits (ds : List Nat) (hlt : ∀ d ∈ ds, d < 16) :
    String.utf8ByteSize ⟨ds.map Nat.digitChar⟩ = ds.length := by
  induction ds with
  | nil => rfl
  | cons d ds ih =>
    have h1 : String.utf8ByteSize ⟨(d :: ds).map Nat.digitChar⟩
        = String.utf8ByteSize ⟨ds.map Nat.digitChar⟩ + (Nat.digitChar d).utf8Size := rfl
    rw [h1, ih (fun x hx => hlt x (List.mem_cons_of_mem _ hx)),
      digitChar_utf8Size d (hlt d (List.mem_cons_self _ _))]
    simp

/-- Decoding an even number of hexadecimal digits, two per byte, gives bytes whose
base-256 reading is the base-16 reading of the digits. -/
theorem hexDecodeChars_digits : ∀ ds : List Nat, (∀ d ∈ ds, d < 16) → ds.length % 2 = 0 →
    ∃ bytes, hexDecodeChars (ds.map Nat.digitChar) = some bytes ∧
      ∀ acc, bytes.foldl (fun a b => a * 256 + b.toNat) acc
        = ds.foldl (fun a d => a * 16 + d) acc
  | [], _, _ => ⟨[], rfl, fun _ => rfl⟩
  | [_], _, hlen => by simp at hlen
  | hi :: lo :: rest, hlt, hlen => by
    have hhi : hi < 16 := hlt hi (by simp)
    have hlo : lo < 16 := hlt lo (by simp)
    have hrest : ∀ d ∈ rest, d < 16 := fun d hd => hlt d (by simp [hd])
    have hlen2 : rest.length % 2 = 0 := by
      simp only [List.length_cons] at hlen
      omega
    obtain ⟨tl, htl, hfold⟩ := hexDecodeChars_digits rest hrest hlen2
    refine ⟨UInt8.ofNat (hi * 16 + lo) :: tl, ?_, ?_⟩
    · simp only [List.map_cons, hexDecodeChars, digitChar_fromHexChar hi hhi,
        digitChar_fromHexChar lo hlo, htl]
    · intro acc
      simp only [List.foldl_cons]
      rw [hfold, uint8_ofNat_toNat _ (by omega)]
      congr 1
      ring

/-- The argument of `GetCredits` written through its digits. -/
theorem ensureEvenHex_sprintfHex_digits (id : Nat) (hid : id < 2 ^ 64) :
    ∃ ds : List Nat, ds ≠ [] ∧ (∀ d ∈ ds, d < 16) ∧ ds.length % 2 = 0 ∧
      ensureEvenHex (sprintfHex id) = ⟨ds.map Nat.digitChar⟩ ∧
      ds.foldl (fun a d => a * 16 + d) 0 = id := by
  obtain ⟨ds, hne, hlt, hfmt, hval⟩ := fmtHexLoop_digits 15 id (by norm_num at hid ⊢; exact hid)
  have hsize : (sprintfHex id).utf8ByteSize = ds.length := by
    rw [sprintfHex, hfmt, utf8ByteSize_digits ds hlt]
  by_cases hodd : ds.length % 2 = 0
  · refine ⟨ds, hne, hlt, hodd, ?_, hval⟩
    simp only [ensureEvenHex, hsize, hodd, bne_self_eq_false, Bool.false_eq_true, if_false]
    rw [sprintfHex, hfmt]
  · refine ⟨0 :: ds, by simp, ?_, ?_, ?_, ?_⟩
    · intro d hd
      rcases List.mem_cons.mp hd with hd | hd
      · omega
      · exact hlt d hd
    · simp only [List.length_cons]
      omega
    · have h1 : ds.length % 2 = 1 := by omega
      simp only [ensureEvenHex, hsize, h1]
      rw [sprintfHex, hfmt]
      rfl
    · simpa using hval

/-! ### Lemmas on the accessors -/

theorem isPaused_decode_eq_spec (returnData : List (List UInt8)) :
    (if returnData.length == 0 || (returnData.getD 0 []).length == 0 then false
      else (returnData.getD 0 []).getD 0 0 == 1) = pausedFlagSpec returnData := by
  match returnData with
  | [] => rfl
  | [] :: _ => rfl
  | (b :: _) :: _ =>
    simp only [pausedFlagSpec]
    by_cases h : b = 1
    · simp [h]
    · simp [h]

/-- Cache hit of `IsContractPaused` on a boolean. -/
theorem IsContractPaused_hit {σ π : Type} (cqh : contractQueryHandler σ π) (w : World σ π)
    (b : Bool) (hhit : cqh.cacher.Get w.cache keyIsPaused = (Any.bool b, true)) :
    IsContractPaused cqh w = some ((b, none), afterHit w keyIsPaused) := by
  simp [IsContractPaused, cacherGet, hhit, Any.assertBool, afterHit]

/-- Cache miss of `IsContractPaused`, transport error. -/
theorem IsContractPaused_miss_err {σ π : Type} (cqh : contractQueryHandler σ π) (w : World σ π)
    (res : Option VmValuesResponseData) (e : Error) (chain : π)
    (hmiss : (cqh.cacher.Get w.cache keyIsPaused).2 = false)
    (hquery : cqh.blockchainDataProvider.ExecuteVMQuery w.chain (isPausedRequest cqh)
      = ((res, some e), chain)) :
    IsContractPaused cqh w
      = some ((true, some e), afterMiss w keyIsPaused (isPausedRequest cqh) chain) := by
  simp only [isPausedRequest] at hquery
  simp [IsContractPaused, cacherGet, hmiss, executeVMQuery, hquery, afterMiss, isPausedRequest]

/-- Cache miss of `IsContractPaused`, response without data. -/
theorem IsContractPaused_miss_nodata {σ π : Type} (cqh : contractQueryHandler σ π)
    (w : World σ π) (res : VmValuesResponseData) (chain : π)
    (hmiss : (cqh.cacher.Get w.cache keyIsPaused).2 = false)
    (hquery : cqh.blockchainDataProvider.ExecuteVMQuery w.chain (isPausedRequest cqh)
      = ((some res, none), chain))
    (hdata : res.Data = none) :
    IsContractPaused cqh w
      = some ((true, none), afterMiss w keyIsPaused (isPausedRequest cqh) chain) := by
  simp only [isPausedRequest] at hquery
  simp [IsContractPaused, cacherGet, hmiss, executeVMQuery, hquery, hdata, afterMiss,
    isPausedRequest]

/-- Cache miss of `IsContractPaused`, return code other than `ok`. -/
theorem IsContractPaused_miss_notok {σ π : Type} (cqh : contractQueryHandler σ π)
    (w : World σ π) (res : VmValuesResponseData) (d : VMOutputApi) (chain : π)
    (hmiss : (cqh.cacher.Get w.cache keyIsPaused).2 = false)
    (hquery : cqh.blockchainDataProvider.ExecuteVMQuery w.chain (isPausedRequest cqh)
      = ((some res, none), chain))
    (hdata : res.Data = some d) (hcode : d.ReturnCode ≠ returnCodeOk) :
    IsContractPaused cqh w
      = some ((true, none), afterMiss w keyIsPaused (isPausedRequest cqh) chain) := by
  simp only [isPausedRequest] at hquery
  by_cases hnf : d.ReturnCode = contractNotFoundStatus
  · simp [IsContractPaused, cacherGet, hmiss, executeVMQuery, hquery, hdata, afterMiss,
      isPausedRequest, hnf]
  · simp [IsContractPaused, cacherGet, hmiss, executeVMQuery, hquery, hdata, afterMiss,
      isPausedRequest, hnf, hcode]

/-- Cache miss of `IsContractPaused`, return code `ok`. -/
theorem IsContractPaused_miss_ok {σ π : Type} (cqh : contractQueryHandler σ π)
    (w : World σ π) (res : VmValuesResponseData) (d : VMOutputApi) (chain : π)
    (hmiss : (cqh.cacher.Get w.cache keyIsPaused).2 = false)
    (hquery : cqh.blockchainDataProvider.ExecuteVMQuery w.chain (isPausedRequest cqh)
      = ((some res, none), chain))
    (hdata : res.Data = some d) (hcode : d.ReturnCode = returnCodeOk) :
    IsContractPaused cqh w
      = some ((pausedFlagSpec d.ReturnData, none),
          cacherSet cqh (afterMiss w keyIsPaused (isPausedRequest cqh) chain) keyIsPaused
            (Any.bool (pausedFlagSpec d.ReturnData))) := by
  simp only [isPausedRequest] at hquery
  have hnf : ¬ (returnCodeOk = contractNotFoundStatus) := by decide
  simp only [IsContractPaused, cacherGet, hmiss, executeVMQuery, hquery, hdata, hcode,
    isPaused_decode_eq_spec]
  simp [hnf, afterMiss, isPausedRequest, cacherSet]

/-- Cache hit of `GetCreditsPerEGLD` on an unsigned 64-bit integer. -/
theorem GetCreditsPerEGLD_hit {σ π : Type} (cqh : contractQueryHandler σ π) (w : World σ π)
    (n : Nat) (hhit : cqh.cacher.Get w.cache keyCreditsPerEgld = (Any.uint64 n, true)) :
    GetCreditsPerEGLD cqh w = some ((n, none), afterHit w keyCreditsPerEgld) := by
  simp [GetCreditsPerEGLD, cacherGet, hhit, Any.assertUint64, afterHit]

/-- Cache miss of `GetCreditsPerEGLD`, transport error. -/
theorem GetCreditsPerEGLD_miss_err {σ π : Type} (cqh : contractQueryHandler σ π)
    (w : World σ π) (res : Option VmValuesResponseData) (e : Error) (chain : π)
    (hmiss : (cqh.cacher.Get w.cache keyCreditsPerEgld).2 = false)
    (hquery : cqh.blockchainDataProvider.ExecuteVMQuery w.chain (creditsPerEgldRequest cqh)
      = ((res, some e), chain)) :
    GetCreditsPerEGLD cqh w
      = some ((0, some e), afterMiss w keyCreditsPerEgld (creditsPerEgldRequest cqh) chain) := by
  simp only [creditsPerEgldRequest] at hquery
  simp [GetCreditsPerEGLD, cacherGet, hmiss, executeVMQuery, hquery, afterMiss,
    creditsPerEgldRequest]

/-- Cache miss of `GetCreditsPerEGLD`, first return-data element out of range. -/
theorem GetCreditsPerEGLD_miss_overflow {σ π : Type} (cqh : contractQueryHandler σ π)
    (w : World σ π) (res : VmValuesResponseData) (d : VMOutputApi) (chain : π)
    (bytes : List UInt8) (rest : List (List UInt8))
    (hmiss : (cqh.cacher.Get w.cache keyCreditsPerEgld).2 = false)
    (hquery : cqh.blockchainDataProvider.ExecuteVMQuery w.chain (creditsPerEgldRequest cqh)
      = ((some res, none), chain))
    (hdata : res.Data = some d) (hret : d.ReturnData = bytes :: rest)
    (hbig : ¬ bigEndianValue bytes < 2 ^ 64) :
    GetCreditsPerEGLD cqh w
      = some ((0, some (errNotUint64 (bigEndianValue bytes))),
          afterMiss w keyCreditsPerEgld (creditsPerEgldRequest cqh) chain) := by
  simp only [creditsPerEgldRequest] at hquery
  have hdec : vmValueToUint64Decoder (bytes :: rest)
      = (0, some (errNotUint64 (bigEndianValue bytes))) := by
    rw [vmValueToUint64Decoder_cons, if_neg hbig]
  simp [GetCreditsPerEGLD, cacherGet, hmiss, executeVMQuery, hquery, hdata, hret, hdec,
    afterMiss, creditsPerEgldRequest]

/-- Cache miss of `GetCreditsPerEGLD`, first return-data element in range. -/
theorem GetCreditsPerEGLD_miss_ok {σ π : Type} (cqh : contractQueryHandler σ π)
    (w : World σ π) (res : VmValuesResponseData) (d : VMOutputApi) (chain : π)
    (bytes : List UInt8) (rest : List (List UInt8))
    (hmiss : (cqh.cacher.Get w.cache keyCreditsPerEgld).2 = false)
    (hquery : cqh.blockchainDataProvider.ExecuteVMQuery w.chain (creditsPerEgldRequest cqh)
      = ((some res, none), chain))
    (hdata : res.Data = some d) (hret : d.ReturnData = bytes :: rest)
    (hsmall : bigEndianValue bytes < 2 ^ 64) :
    GetCreditsPerEGLD cqh w
      = some ((bigEndianValue bytes, none),
          cacherSet cqh (afterMiss w keyCreditsPerEgld (creditsPerEgldRequest cqh) chain)
            keyCreditsPerEgld (Any.uint64 (bigEndianValue bytes))) := by
  simp only [creditsPerEgldRequest] at hquery
  have hdec : vmValueToUint64Decoder (bytes :: rest) = (bigEndianValue bytes, none) := by
    rw [vmValueToUint64Decoder_cons, if_pos hsmall]
  simp [GetCreditsPerEGLD, cacherGet, hmiss, executeVMQuery, hquery, hdata, hret, hdec,
    afterMiss, creditsPerEgldRequest, cacherSet]

theorem listCacher_get_set (s : List (String × Any)) (k : String) (v : Any) :
    listCacher.Get (listCacher.Set s k v) k = (v, true) := by
  simp [listCacher, List.lookup]

/-- A `GetCredits` call whose transport errors. -/
theorem GetCredits_err {σ π : Type} (cqh : contractQueryHandler σ π) (w : World σ π) (id : Nat)
    (res : Option VmValuesResponseData) (e : Error) (chain : π)
    (hquery : cqh.blockchainDataProvider.ExecuteVMQuery w.chain (getCreditsRequest cqh id)
      = ((res, some e), chain)) :
    GetCredits cqh w id
      = some ((0, some e),
          { cache := w.cache, chain := chain,
            trace := w.trace ++ [Event.vmQuery (getCreditsRequest cqh id)] }) := by
  simp only [getCreditsRequest] at hquery
  simp [GetCredits, executeVMQuery, hquery, getCreditsRequest]

/-- A `GetCredits` call whose response carries data. -/
theorem GetCredits_data {σ π : Type} (cqh : contractQueryHandler σ π) (w : World σ π) (id : Nat)
    (res : VmValuesResponseData) (d : VMOutputApi) (chain : π)
    (hquery : cqh.blockchainDataProvider.ExecuteVMQuery w.chain (getCreditsRequest cqh id)
      = ((some res, none), chain))
    (hdata : res.Data = some d) :
    GetCredits cqh w id
      = some (vmValueToUint64Decoder d.ReturnData,
          { cache := w.cache, chain := chain,
            trace := w.trace ++ [Event.vmQuery (getCreditsRequest cqh id)] }) := by
  simp only [getCreditsRequest] at hquery
  simp [GetCredits, executeVMQuery, hquery, hdata, getCreditsRequest]

/-- Whatever `GetCredits` returns, the world it leaves has the cache it found and one more
call in its trace, the query. -/
theorem GetCredits_frame {σ π : Type} (cqh : contractQueryHandler σ π) (w : World σ π)
    (id : Nat) (r : (Nat × Option Error) × World σ π) (h : GetCredits cqh w id = some r) :
    r.2 = { cache := w.cache
            chain := (cqh.blockchainDataProvider.ExecuteVMQuery w.chain
              (getCreditsRequest cqh id)).2
            trace := w.trace ++ [Event.vmQuery (getCreditsRequest cqh id)] } := by
  rcases hq : cqh.blockchainDataProvider.ExecuteVMQuery w.chain (getCreditsRequest cqh id)
    with ⟨⟨res, err⟩, chain⟩
  cases err with
  | some e =>
    rw [GetCredits_err cqh w id res e chain hq] at h
    cases h
    rfl
  | none =>
    cases res with
    | none =>
      simp only [getCreditsRequest] at hq
      simp [GetCredits, executeVMQuery, hq] at h
    | some res =>
      cases hd : res.Data with
      | none =>
        simp only [getCreditsRequest] at hq
        simp [GetCredits, executeVMQuery, hq, hd] at h
      | some d =>
        rw [GetCredits_data cqh w id res d chain hq hd] at h
        cases h
        rfl

theorem utf8ByteSize_eq_zero_iff (s : String) : s.utf8ByteSize = 0 ↔ s = "" := by
  obtain ⟨l⟩ := s
  cases l with
  | nil => simp [String.utf8ByteSize, String.utf8ByteSize.go]
  | cons c cs =>
    have h : String.utf8ByteSize ⟨c :: cs⟩ = String.utf8ByteSize ⟨cs⟩ + c.utf8Size := rfl
    have hpos := Char.utf8Size_pos c
    constructor
    · intro h0
      omega
    · intro h0
      have hdata := congrArg String.data h0
      simp at hdata

theorem queriesOf_append (xs ys : List Event) :
    queriesOf (xs ++ ys) = queriesOf xs ++ queriesOf ys := by
  induction xs with
  | nil => rfl
  | cons x xs ih =>
    cases x with
    | cacheGet k => simpa [queriesOf] using ih
    | cacheSet k v => simpa [queriesOf] using ih
    | vmQuery req => simp [queriesOf, ih]

/-- The three ways `IsContractPaused` returns: a hit on a boolean; a miss that leaves the
cache alone; a miss that ends with `Set(isPaused, b)` for the boolean returned. -/
theorem IsContractPaused_cases {σ π : Type} (cqh : contractQueryHandler σ π) (w : World σ π)
    (r : (Bool × Option Error) × World σ π) (h : IsContractPaused cqh w = some r) :
    (∃ b, cqh.cacher.Get w.cache keyIsPaused = (Any.bool b, true)
        ∧ r = ((b, none), afterHit w keyIsPaused))
      ∨ ((cqh.cacher.Get w.cache keyIsPaused).2 = false
        ∧ ∃ chain, r.2 = afterMiss w keyIsPaused (isPausedRequest cqh) chain)
      ∨ ((cqh.cacher.Get w.cache keyIsPaused).2 = false
        ∧ ∃ chain b, r = ((b, none),
            cacherSet cqh (afterMiss w keyIsPaused (isPausedRequest cqh) chain) keyIsPaused
              (Any.bool b))) := by
  rcases hget : cqh.cacher.Get w.cache keyIsPaused with ⟨v, found⟩
  cases found with
  | true =>
    cases v with
    | bool b =>
      rw [IsContractPaused_hit cqh w b hget] at h
      cases h
      exact Or.inl ⟨b, rfl, rfl⟩
    | nil => simp [IsContractPaused, cacherGet, hget, Any.assertBool] at h
    | uint64 n => simp [IsContractPaused, cacherGet, hget, Any.assertBool] at h
    | string t => simp [IsContractPaused, cacherGet, hget, Any.assertBool] at h
    | float64 x => simp [IsContractPaused, cacherGet, hget, Any.assertBool] at h
  | false =>
    have hmiss : (cqh.cacher.Get w.cache keyIsPaused).2 = false := by rw [hget]
    rcases hq : cqh.blockchainDataProvider.ExecuteVMQuery w.chain (isPausedRequest cqh)
      with ⟨⟨res, err⟩, chain⟩
    cases err with
    | some e =>
      rw [IsContractPaused_miss_err cqh w res e chain hmiss hq] at h
      cases h
      exact Or.inr (Or.inl ⟨rfl, chain, rfl⟩)
    | none =>
      cases res with
      | none =>
        simp only [isPausedRequest] at hq
        simp [IsContractPaused, cacherGet, hget, executeVMQuery, hq] at h
      | some res =>
        cases hd : res.Data with
        | none =>
          rw [IsContractPaused_miss_nodata cqh w res chain hmiss hq hd] at h
          cases h
          exact Or.inr (Or.inl ⟨rfl, chain, rfl⟩)
        | some d =>
          by_cases hcode : d.ReturnCode = returnCodeOk
          · rw [IsContractPaused_miss_ok cqh w res d chain hmiss hq hd hcode] at h
            cases h
            exact Or.inr (Or.inr ⟨rfl, chain, _, rfl⟩)
          · rw [IsContractPaused_miss_notok cqh w res d chain hmiss hq hd hcode] at h
            cases h
            exact Or.inr (Or.inl ⟨rfl, chain, rfl⟩)

/-- The three ways `GetCreditsPerEGLD` returns: a hit on an unsigned integer; a miss that
leaves the cache alone; a miss that ends with `Set(creditsPerEgld, n)` for the value
returned, which is below `2^64`. -/
theorem GetCreditsPerEGLD_cases {σ π : Type} (cqh : contractQueryHandler σ π) (w : World σ π)
    (r : (Nat × Option Error) × World σ π) (h : GetCreditsPerEGLD cqh w = some r) :
    (∃ n, cqh.cacher.Get w.cache keyCreditsPerEgld = (Any.uint64 n, true)
        ∧ r = ((n, none), afterHit w keyCreditsPerEgld))
      ∨ ((cqh.cacher.Get w.cache keyCreditsPerEgld).2 = false
        ∧ ∃ chain, r.2 = afterMiss w keyCreditsPerEgld (creditsPerEgldRequest cqh) chain)
      ∨ ((cqh.cacher.Get w.cache keyCreditsPerEgld).2 = false
        ∧ ∃ chain n, n < 2 ^ 64 ∧ r = ((n, none),
            cacherSet cqh (afterMiss w keyCreditsPerEgld (creditsPerEgldRequest cqh) chain)
              keyCreditsPerEgld (Any.uint64 n))) := by
  rcases hget : cqh.cacher.Get w.cache keyCreditsPerEgld with ⟨v, found⟩
  cases found with
  | true =>
    cases v with
    | uint64 n =>
      rw [GetCreditsPerEGLD_hit cqh w n hget] at h
      cases h
      exact Or.inl ⟨n, rfl, rfl⟩
    | nil => simp [GetCreditsPerEGLD, cacherGet, hget, Any.assertUint64] at h
    | bool b => simp [GetCreditsPerEGLD, cacherGet, hget, Any.assertUint64] at h
    | string t => simp [GetCreditsPerEGLD, cacherGet, hget, Any.assertUint64] at h
    | float64 x => simp [GetCreditsPerEGLD, cacherGet, hget, Any.assertUint64] at h
  | false =>
    have hmiss : (cqh.cacher.Get w.cache keyCreditsPerEgld).2 = false := by rw [hget]
    rcases hq : cqh.blockchainDataProvider.ExecuteVMQuery w.chain (creditsPerEgldRequest cqh)
      with ⟨⟨res, err⟩, chain⟩
    cases err with
    | some e =>
      rw [GetCreditsPerEGLD_miss_err cqh w res e chain hmiss hq] at h
      cases h
      exact Or.inr (Or.inl ⟨rfl, chain, rfl⟩)
    | none =>
      cases res with
      | none =>
        simp only [creditsPerEgldRequest] at hq
        simp [GetCreditsPerEGLD, cacherGet, hget, executeVMQuery, hq] at h
      | some res =>
        cases hd : res.Data with
        | none =>
          simp only [creditsPerEgldRequest] at hq
          simp [GetCreditsPerEGLD, cacherGet, hget, executeVMQuery, hq, hd] at h
        | some d =>
          cases hret : d.ReturnData with
          | nil =>
            simp only [creditsPerEgldRequest] at hq
            simp only [GetCreditsPerEGLD, cacherGet, hget, executeVMQuery, hq, hd, hret,
              vmValueToUint64Decoder] at h
            simp at h
            subst h
            refine Or.inr (Or.inr ⟨rfl, chain, 0, by norm_num, ?_⟩)
            simp [afterMiss, creditsPerEgldRequest]
          | cons bytes rest =>
            by_cases hsmall : bigEndianValue bytes < 2 ^ 64
            · rw [GetCreditsPerEGLD_miss_ok cqh w res d chain bytes rest hmiss hq hd hret
                hsmall] at h
              cases h
              exact Or.inr (Or.inr ⟨rfl, chain, _, hsmall, rfl⟩)
            · rw [GetCreditsPerEGLD_miss_overflow cqh w res d chain bytes rest hmiss hq hd
                hret hsmall] at h
              cases h
              exact Or.inr (Or.inl ⟨rfl, chain, rfl⟩)

/-! ### Lemmas on runs -/

theorem setCount_append (key : String) (xs ys : List Event) :
    setCount key (xs ++ ys) = setCount key xs + setCount key ys := by
  induction xs with
  | nil => simp [setCount]
  | cons x xs ih =>
    cases x with
    | cacheGet k => simpa [setCount] using ih
    | cacheSet k v =>
      have h1 : setCount key (Event.cacheSet k v :: xs ++ ys)
          = (if k = key then 1 else 0) + setCount key (xs ++ ys) := rfl
      have h2 : setCount key (Event.cacheSet k v :: xs)
          = (if k = key then 1 else 0) + setCount key xs := rfl
      rw [h1, h2, ih]
      omega
    | vmQuery req => simpa [setCount] using ih

/-- What one call does to the cache: either it leaves the cache alone and records no `Set`,
or it found key `k` missing, stored a value of the type of that key under `k`, and
recorded the `Get`, one query and that `Set`. -/
theorem execCall_cases {σ π : Type} (cqh : contractQueryHandler σ π) (w w1 : World σ π)
    (c : Call) (h : execCall cqh w c = some w1) :
    (∃ ev, w1.cache = w.cache ∧ w1.trace = w.trace ++ ev
        ∧ (∀ k v, Event.cacheSet k v ∉ ev) ∧ (∀ k, setCount k ev = 0))
      ∨ (∃ k v req,
          ((k = keyIsPaused ∧ ∃ b, v = Any.bool b)
            ∨ (k = keyCreditsPerEgld ∧ ∃ n, n < 2 ^ 64 ∧ v = Any.uint64 n))
          ∧ (cqh.cacher.Get w.cache k).2 = false
          ∧ w1.cache = cqh.cacher.Set w.cache k v
          ∧ w1.trace = w.trace ++ [Event.cacheGet k, Event.vmQuery req, Event.cacheSet k v]) := by
  cases c with
  | isContractPaused =>
    simp only [execCall, Option.map_eq_some'] at h
    obtain ⟨r, hr, rfl⟩ := h
    rcases IsContractPaused_cases cqh w r hr with
      ⟨b, _, hr2⟩ | ⟨_, chain, hr2⟩ | ⟨hmiss, chain, b, hr2⟩
    · subst hr2
      exact Or.inl ⟨[Event.cacheGet keyIsPaused], rfl, rfl, by simp, by simp [setCount]⟩
    · rw [hr2]
      exact Or.inl ⟨[Event.cacheGet keyIsPaused, Event.vmQuery (isPausedRequest cqh)], rfl, rfl,
        by simp, by simp [setCount]⟩
    · subst hr2
      exact Or.inr ⟨keyIsPaused, Any.bool b, isPausedRequest cqh, Or.inl ⟨rfl, b, rfl⟩, hmiss,
        rfl, by simp [cacherSet, afterMiss]⟩
  | getCreditsPerEGLD =>
    simp only [execCall, Option.map_eq_some'] at h
    obtain ⟨r, hr, rfl⟩ := h
    rcases GetCreditsPerEGLD_cases cqh w r hr with
      ⟨n, _, hr2⟩ | ⟨_, chain, hr2⟩ | ⟨hmiss, chain, n, hn, hr2⟩
    · subst hr2
      exact Or.inl ⟨[Event.cacheGet keyCreditsPerEgld], rfl, rfl, by simp, by simp [setCount]⟩
    · rw [hr2]
      exact Or.inl ⟨[Event.cacheGet keyCreditsPerEgld,
        Event.vmQuery (creditsPerEgldRequest cqh)], rfl, rfl, by simp, by simp [setCount]⟩
    · subst hr2
      exact Or.inr ⟨keyCreditsPerEgld, Any.uint64 n, creditsPerEgldRequest cqh,
        Or.inr ⟨rfl, n, hn, rfl⟩, hmiss, rfl, by simp [cacherSet, afterMiss]⟩
  | getCredits id =>
    simp only [execCall, Option.map_eq_some'] at h
    obtain ⟨r, hr, rfl⟩ := h
    rw [GetCredits_frame cqh w id r hr]
    exact Or.inl ⟨[Event.vmQuery (getCreditsRequest cqh id)], rfl, rfl, by simp,
      by simp [setCount]⟩

/-- Over a cache that returns the last value set, a run writes a key at most once, and
leaves a key that is present as it is, without writing it. -/
theorem runCalls_write_once {σ π : Type} (cqh : contractQueryHandler σ π)
    (hlaw : LastSetVisible cqh.cacher) (key : String) :
    ∀ (cs : List Call) (w w' : World σ π), runCalls cqh cs w = some w' →
      setCount key w'.trace ≤ setCount key w.trace + 1
        ∧ (∀ v, cqh.cacher.Get w.cache key = (v, true) →
            cqh.cacher.Get w'.cache key = (v, true)
            ∧ setCount key w'.trace = setCount key w.trace) := by
  intro cs
  induction cs with
  | nil =>
    intro w w' h
    simp only [runCalls, Option.some.injEq] at h
    subst h
    exact ⟨Nat.le_succ _, fun v hv => ⟨hv, rfl⟩⟩
  | cons c cs ih =>
    intro w w' h
    simp only [runCalls] at h
    cases hc : execCall cqh w c with
    | none => simp [hc] at h
    | some w1 =>
      simp only [hc] at h
      obtain ⟨hle, hkeep⟩ := ih w1 w' h
      rcases execCall_cases cqh w w1 c hc with
        ⟨ev, hcache, htrace, _, hcount⟩ | ⟨k, v0, req, _, hmiss, hcache, htrace⟩
      · have hsame : setCount key w1.trace = setCount key w.trace := by
          rw [htrace, setCount_append, hcount key]
          rfl
        rw [hsame] at hle hkeep
        rw [hcache] at hkeep
        exact ⟨hle, hkeep⟩
      · by_cases hk : k = key
        · subst hk
          have hone : setCount k w1.trace = setCount k w.trace + 1 := by
            rw [htrace, setCount_append]
            simp [setCount]
          have hpresent : cqh.cacher.Get w1.cache k = (v0, true) := by
            rw [hcache]
            exact hlaw.1 w.cache k v0
          obtain ⟨_, hcnt⟩ := hkeep v0 hpresent
          refine ⟨by omega, ?_⟩
          intro v hv
          rw [hv] at hmiss
          cases hmiss
        · have hsame : setCount key w1.trace = setCount key w.trace := by
            rw [htrace, setCount_append]
            simp [setCount, hk]
          have hget : cqh.cacher.Get w1.cache key = cqh.cacher.Get w.cache key := by
            rw [hcache]
            exact hlaw.2 w.cache k v0 key (fun h => hk h.symm)
          rw [hsame] at hle
          refine ⟨hle, ?_⟩
          intro v hv
          rw [← hget] at hv
          rw [← hsame]
          exact hkeep v hv

theorem listCacher_lastSetVisible : LastSetVisible listCacher := by
  constructor
  · intro s k v
    exact listCacher_get_set s k v
  · intro s k v k' hne
    have hbeq : (k' == k) = false := by simpa using hne
    simp [listCacher, List.lookup, hbeq]

/-- One call keeps the typing predicate on the cache, over a cache that returns the last
value set. -/
theorem execCall_wellTyped {σ π : Type} (cqh : contractQueryHandler σ π)
    (hlaw : LastSetVisible cqh.cacher) (c : Call) (w w1 : World σ π)
    (hwt : WellTyped cqh.cacher w.cache) (h : execCall cqh w c = some w1) :
    WellTyped cqh.cacher w1.cache := by
  have hkeys : keyCreditsPerEgld ≠ keyIsPaused := by decide
  rcases execCall_cases cqh w w1 c h with
    ⟨ev, hcache, _, _, _⟩ | ⟨k, v, req, hkv, _, hcache, _⟩
  · rw [hcache]
    exact hwt
  · rw [hcache]
    rcases hkv with ⟨rfl, b, rfl⟩ | ⟨rfl, n, hn, rfl⟩
    · constructor
      · intro _
        rw [hlaw.1]
        exact ⟨b, rfl⟩
      · rw [hlaw.2 w.cache keyIsPaused (Any.bool b) keyCreditsPerEgld hkeys]
        exact hwt.2
    · constructor
      · rw [hlaw.2 w.cache keyCreditsPerEgld (Any.uint64 n) keyIsPaused (fun h => hkeys h.symm)]
        exact hwt.1
      · intro _
        rw [hlaw.1]
        exact ⟨n, hn, rfl⟩

theorem runCalls_wellTyped {σ π : Type} (cqh : contractQueryHandler σ π)
    (hlaw : LastSetVisible cqh.cacher) :
    ∀ (cs : List Call) (w w' : World σ π), WellTyped cqh.cacher w.cache →
      runCalls cqh cs w = some w' → WellTyped cqh.cacher w'.cache := by
  intro cs
  induction cs with
  | nil =>
    intro w w' hwt h
    simp only [runCalls, Option.some.injEq] at h
    subst h
    exact hwt
  | cons c cs ih =>
    intro w w' hwt h
    simp only [runCalls] at h
    cases hc : execCall cqh w c with
    | none => simp [hc] at h
    | some w1 =>
      simp only [hc] at h
      exact ih w1 w' (execCall_wellTyped cqh hlaw c w w1 hwt hc) h

/-! ## The claims -/

/-- C1: for every non-empty sequence of byte arrays, `vmValueToUint64Decoder` reads the first
array as a big-endian unsigned integer `n` of arbitrary length and returns `(n, nil)` when
`n <= 2^64-1` and an error otherwise. The arrays after the first are ignored, the empty
array reads as 0, leading zero bytes do not change `n`, a set top bit is no sign (eight
bytes `0xff` read as `2^64-1`), `[[0x00,0x64]]` gives `(100, nil)` and the nine-byte
encoding of `2^64` is rejected. -/
theorem vmValueToUint64Decoder_reads_big_endian (bytes : List UInt8) (rest : List (List UInt8)) :
    vmValueToUint64Decoder (bytes :: rest) =
        (if bigEndianValue bytes ≤ 2 ^ 64 - 1 then (bigEndianValue bytes, none)
         else (0, some (errNotUint64 (bigEndianValue bytes))))
      ∧ vmValueToUint64Decoder (bytes :: rest) = vmValueToUint64Decoder [bytes]
      ∧ vmValueToUint64Decoder ([] :: rest) = (0, none)
      ∧ (∀ k, bigEndianValue (List.replicate k 0 ++ bytes) = bigEndianValue bytes)
      ∧ (∀ k, vmValueToUint64Decoder ((List.replicate k 0 ++ bytes) :: rest)
            = vmValueToUint64Decoder (bytes :: rest))
      ∧ vmValueToUint64Decoder ([0xff, 0xff, 0xff, 0xff, 0xff, 0xff, 0xff, 0xff] :: rest)
            = (2 ^ 64 - 1, none)
      ∧ vmValueToUint64Decoder [[0x00, 0x64]] = (100, none)
      ∧ vmValueToUint64Decoder [[1, 0, 0, 0, 0, 0, 0, 0, 0]] = (0, some (errNotUint64 (2 ^ 64))) := by
  have hzero : ∀ k, bigEndianValue (List.replicate k 0 ++ bytes) = bigEndianValue bytes := by
    intro k
    rw [bigEndianValue_append, bigEndianValue_replicate_zero]
    simp
  have hle : (bigEndianValue bytes ≤ 2 ^ 64 - 1) ↔ (bigEndianValue bytes < 2 ^ 64) := by
    constructor <;> intro h <;> omega
  refine ⟨?_, ?_, ?_, hzero, ?_, ?_, ?_, ?_⟩
  · rw [vmValueToUint64Decoder_cons]
    by_cases h : bigEndianValue bytes < 2 ^ 64
    · rw [if_pos h, if_pos (hle.mpr h)]
    · rw [if_neg h, if_neg (fun h2 => h (hle.mp h2))]
  · rw [vmValueToUint64Decoder_cons, vmValueToUint64Decoder_cons]
  · rw [vmValueToUint64Decoder_cons]
    rfl
  · intro k
    rw [vmValueToUint64Decoder_cons, vmValueToUint64Decoder_cons, hzero]
  · rw [vmValueToUint64Decoder_cons]
    rfl
  · rw [vmValueToUint64Decoder_cons]
    rfl
  · rw [vmValueToUint64Decoder_cons]
    rfl

/-- C2: for every `uint64` value `id`, the argument `ensureEvenHex(fmt.Sprintf("%x", id))`
that `GetCredits` sends is a non-empty string of lowercase hexadecimal digits of even
length (in bytes and in characters), and decoding it from hex to bytes and reading the
bytes as a big-endian unsigned integer gives `id` again. -/
theorem getCredits_hex_argument_roundtrip (id : Nat) (hid : id < 2 ^ 64) :
    ensureEvenHex (sprintfHex id) ≠ ""
      ∧ (ensureEvenHex (sprintfHex id)).utf8ByteSize % 2 = 0
      ∧ (ensureEvenHex (sprintfHex id)).length % 2 = 0
      ∧ (∀ c ∈ (ensureEvenHex (sprintfHex id)).data, isLowerHexDigit c = true)
      ∧ ∃ bytes, hexDecodeString (ensureEvenHex (sprintfHex id)) = some bytes
          ∧ bigEndianValue bytes = id := by
  obtain ⟨ds, hne, hlt, heven, harg, hval⟩ := ensureEvenHex_sprintfHex_digits id hid
  obtain ⟨bytes, hdec, hfold⟩ := hexDecodeChars_digits ds hlt heven
  rw [harg]
  refine ⟨?_, ?_, ?_, ?_, bytes, hdec, ?_⟩
  · intro h
    have h2 : ds.map Nat.digitChar = [] := congrArg String.data h
    exact hne (List.map_eq_nil_iff.mp h2)
  · rw [utf8ByteSize_digits ds hlt]
    exact heven
  · simpa [String.length] using heven
  · intro c hc
    obtain ⟨d, hd, rfl⟩ := List.mem_map.mp hc
    exact digitChar_isLowerHexDigit d (hlt d hd)
  · rw [← setBytes_eq_bigEndianValue, setBytes, hfold 0, hval]

/-- Witness for C2 at the largest and the smallest identifier: `2^64-1` is sent as sixteen
digits `f`, and 0 as `00`. -/
theorem getCredits_hex_argument_roundtrip_witness :
    2 ^ 64 - 1 < 2 ^ 64
      ∧ ensureEvenHex (sprintfHex (2 ^ 64 - 1)) = "ffffffffffffffff"
      ∧ ensureEvenHex (sprintfHex 0) = "00"
      ∧ hexDecodeString "00" = some [0]
      ∧ (ensureEvenHex (sprintfHex (2 ^ 64 - 1)) ≠ ""
        ∧ (ensureEvenHex (sprintfHex (2 ^ 64 - 1))).utf8ByteSize % 2 = 0
        ∧ (ensureEvenHex (sprintfHex (2 ^ 64 - 1))).length % 2 = 0
        ∧ (∀ c ∈ (ensureEvenHex (sprintfHex (2 ^ 64 - 1))).data, isLowerHexDigit c = true)
        ∧ ∃ bytes, hexDecodeString (ensureEvenHex (sprintfHex (2 ^ 64 - 1))) = some bytes
            ∧ bigEndianValue bytes = 2 ^ 64 - 1) :=
  ⟨by decide, by decide, by decide, by decide,
    getCredits_hex_argument_roundtrip (2 ^ 64 - 1) (by decide)⟩

/-- C3: on a cache miss with no transport error, `IsContractPaused` returns `(true, nil)`
whenever the response carries no data, or its return code is `contract not found`, or its
return code is any value other than `ok`, whatever the return data contains; the boolean
is never false in these branches. -/
theorem IsContractPaused_true_when_not_ok {σ π : Type} (cqh : contractQueryHandler σ π)
    (w : World σ π) (res : VmValuesResponseData) (chain : π)
    (hmiss : (cqh.cacher.Get w.cache keyIsPaused).2 = false)
    (hquery : cqh.blockchainDataProvider.ExecuteVMQuery w.chain (isPausedRequest cqh)
      = ((some res, none), chain))
    (hcase : res.Data = none ∨ ∃ d, res.Data = some d ∧
      (d.ReturnCode = contractNotFoundStatus ∨ d.ReturnCode ≠ returnCodeOk)) :
    (IsContractPaused cqh w).map Prod.fst = some (true, none) := by
  rcases hcase with hnone | ⟨d, hd, hnf | hcode⟩
  · rw [IsContractPaused_miss_nodata cqh w res chain hmiss hquery hnone]
    rfl
  · have hcode : d.ReturnCode ≠ returnCodeOk := by
      rw [hnf]
      decide
    rw [IsContractPaused_miss_notok cqh w res d chain hmiss hquery hd hcode]
    rfl
  · rw [IsContractPaused_miss_notok cqh w res d chain hmiss hquery hd hcode]
    rfl

/-- Witness for C3: a response without data, a `contract not found` response and an
`execution failed` response, the last two carrying return data. -/
theorem IsContractPaused_true_when_not_ok_witness :
    (IsContractPaused (sampleHandler (some ⟨none⟩, none)) (sampleWorld [])).map Prod.fst
        = some (true, none)
      ∧ (IsContractPaused (sampleHandler (okOutcome "contract not found" [[0]]))
          (sampleWorld [])).map Prod.fst = some (true, none)
      ∧ (IsContractPaused (sampleHandler (okOutcome "execution failed" [[0]]))
          (sampleWorld [])).map Prod.fst = some (true, none) :=
  ⟨IsContractPaused_true_when_not_ok _ _ ⟨none⟩ 1 rfl rfl (Or.inl rfl),
   IsContractPaused_true_when_not_ok _ _ ⟨some ⟨[[0]], "contract not found"⟩⟩ 1 rfl rfl
     (Or.inr ⟨_, rfl, Or.inl rfl⟩),
   IsContractPaused_true_when_not_ok _ _ ⟨some ⟨[[0]], "execution failed"⟩⟩ 1 rfl rfl
     (Or.inr ⟨_, rfl, Or.inr (by decide)⟩)⟩

/-- C4: on a cache miss, when the transport call returns an error `e`, `IsContractPaused`
returns `(true, e)`: the boolean is true, the error is `e` itself, the cache is the one the
call started with and the only calls made are the `Get` and the query, no `Set`. -/
theorem IsContractPaused_transport_error {σ π : Type} (cqh : contractQueryHandler σ π)
    (w : World σ π) (res : Option VmValuesResponseData) (e : Error) (chain : π)
    (hmiss : (cqh.cacher.Get w.cache keyIsPaused).2 = false)
    (hquery : cqh.blockchainDataProvider.ExecuteVMQuery w.chain (isPausedRequest cqh)
      = ((res, some e), chain)) :
    ∃ w', IsContractPaused cqh w = some ((true, some e), w')
      ∧ w'.cache = w.cache
      ∧ w'.trace = w.trace ++ [Event.cacheGet keyIsPaused, Event.vmQuery (isPausedRequest cqh)] :=
  ⟨afterMiss w keyIsPaused (isPausedRequest cqh) chain,
    IsContractPaused_miss_err cqh w res e chain hmiss hquery, rfl, rfl⟩

/-- Witness for C4: a transport that times out, over an empty cache. -/
theorem IsContractPaused_transport_error_witness :
    ∃ w', IsContractPaused (sampleHandler (none, some "timeout")) (sampleWorld [])
        = some ((true, some "timeout"), w')
      ∧ w'.cache = []
      ∧ w'.trace = [] ++ [Event.cacheGet keyIsPaused,
          Event.vmQuery (isPausedRequest (sampleHandler (none, some "timeout")))] :=
  IsContractPaused_transport_error (sampleHandler (none, some "timeout")) (sampleWorld [])
    none "timeout" 1 rfl rfl

/-- C5, as stated, fails: over an empty cache with a transport that returns the error
`timeout`, `IsContractPaused` returns `(true, timeout)`, which is not `(true, nil)`. -/
theorem transport_error_is_returned_not_absorbed :
    (listCacher.Get (sampleWorld []).cache keyIsPaused).2 = false
      ∧ ((sampleHandler (none, some "timeout")).blockchainDataProvider.ExecuteVMQuery 0
          (isPausedRequest (sampleHandler (none, some "timeout")))).1.2 = some "timeout"
      ∧ (IsContractPaused (sampleHandler (none, some "timeout")) (sampleWorld [])).map Prod.fst
          = some (true, some "timeout")
      ∧ (IsContractPaused (sampleHandler (none, some "timeout")) (sampleWorld [])).map Prod.fst
          ≠ some (true, none) := by
  decide

/-- C5, amended: for every cache-miss call in which the transport call errors, or the
response carries no data, or the return code is not `ok` (the missing contract included),
`IsContractPaused` returns true; the error returned is the transport's own error when
the transport call errors, and nil in the other two cases. -/
theorem IsContractPaused_ambiguity_gives_true {σ π : Type} (cqh : contractQueryHandler σ π)
    (w : World σ π) (out : QueryOutcome) (chain : π)
    (hmiss : (cqh.cacher.Get w.cache keyIsPaused).2 = false)
    (hquery : cqh.blockchainDataProvider.ExecuteVMQuery w.chain (isPausedRequest cqh)
      = (out, chain))
    (hcase : (∃ e, out.2 = some e) ∨
      (out.2 = none ∧ ∃ res, out.1 = some res ∧
        (res.Data = none ∨ ∃ d, res.Data = some d ∧ d.ReturnCode ≠ returnCodeOk))) :
    (IsContractPaused cqh w).map Prod.fst = some (true, out.2) := by
  obtain ⟨o1, o2⟩ := out
  rcases hcase with ⟨e, he⟩ | ⟨hnil, res, hres, hnone | ⟨d, hd, hcode⟩⟩
  · simp only at he
    subst he
    rw [IsContractPaused_miss_err cqh w o1 e chain hmiss hquery]
    rfl
  · simp only at hnil hres
    subst hnil hres
    rw [IsContractPaused_miss_nodata cqh w res chain hmiss hquery hnone]
    rfl
  · simp only at hnil hres
    subst hnil hres
    rw [IsContractPaused_miss_notok cqh w res d chain hmiss hquery hd hcode]
    rfl

/-- Witness for C5 amended: a transport error, and a `contract not found` response. -/
theorem IsContractPaused_ambiguity_gives_true_witness :
    (IsContractPaused (sampleHandler (none, some "timeout")) (sampleWorld [])).map Prod.fst
        = some (true, some "timeout")
      ∧ (IsContractPaused (sampleHandler (okOutcome "contract not found" []))
          (sampleWorld [])).map Prod.fst = some (true, none) :=
  ⟨IsContractPaused_ambiguity_gives_true (sampleHandler (none, some "timeout"))
      (sampleWorld []) (none, some "timeout") 1 rfl rfl (Or.inl ⟨_, rfl⟩),
   IsContractPaused_ambiguity_gives_true (sampleHandler (okOutcome "contract not found" []))
      (sampleWorld []) (okOutcome "contract not found" []) 1 rfl rfl
      (Or.inr ⟨rfl, _, rfl, Or.inr ⟨_, rfl, by decide⟩⟩)⟩

/-- C6: on a cache miss with no transport error and return code `ok`, `IsContractPaused`
returns `(false, nil)` if the return data is empty or its first element is empty, and
otherwise `(b, nil)` where `b` is true exactly when the first byte of the first element
is 1; the later bytes and the later elements play no part. -/
theorem IsContractPaused_decodes_ok_response {σ π : Type} (cqh : contractQueryHandler σ π)
    (w : World σ π) (res : VmValuesResponseData) (d : VMOutputApi) (chain : π)
    (hmiss : (cqh.cacher.Get w.cache keyIsPaused).2 = false)
    (hquery : cqh.blockchainDataProvider.ExecuteVMQuery w.chain (isPausedRequest cqh)
      = ((some res, none), chain))
    (hdata : res.Data = some d) (hcode : d.ReturnCode = returnCodeOk) :
    (IsContractPaused cqh w).map Prod.fst = some (pausedFlagSpec d.ReturnData, none)
      ∧ (d.ReturnData = [] → (IsContractPaused cqh w).map Prod.fst = some (false, none))
      ∧ (∀ rest, d.ReturnData = [] :: rest →
          (IsContractPaused cqh w).map Prod.fst = some (false, none))
      ∧ (∀ b bs rest, d.ReturnData = (b :: bs) :: rest →
          (IsContractPaused cqh w).map Prod.fst = some (decide (b = 1), none)) := by
  have h := IsContractPaused_miss_ok cqh w res d chain hmiss hquery hdata hcode
  refine ⟨?_, ?_, ?_, ?_⟩
  · rw [h]
    rfl
  · intro hr
    rw [h, hr]
    rfl
  · intro rest hr
    rw [h, hr]
    rfl
  · intro b bs rest hr
    rw [h, hr]
    rfl

/-- Witness for C6: first byte `0x01` followed by other bytes and elements gives true; first
bytes `0x00` and `0x02`, an empty first element and empty return data give false. -/
theorem IsContractPaused_decodes_ok_response_witness :
    (IsContractPaused (sampleHandler (okOutcome "ok" [[1, 7], [9]])) (sampleWorld [])).map
        Prod.fst = some (true, none)
      ∧ (IsContractPaused (sampleHandler (okOutcome "ok" [[0]])) (sampleWorld [])).map
        Prod.fst = some (false, none)
      ∧ (IsContractPaused (sampleHandler (okOutcome "ok" [[2]])) (sampleWorld [])).map
        Prod.fst = some (false, none)
      ∧ (IsContractPaused (sampleHandler (okOutcome "ok" [[], [1]])) (sampleWorld [])).map
        Prod.fst = some (false, none)
      ∧ (IsContractPaused (sampleHandler (okOutcome "ok" [])) (sampleWorld [])).map
        Prod.fst = some (false, none) :=
  ⟨(IsContractPaused_decodes_ok_response (sampleHandler (okOutcome "ok" [[1, 7], [9]]))
      (sampleWorld []) ⟨some ⟨[[1, 7], [9]], "ok"⟩⟩ ⟨[[1, 7], [9]], "ok"⟩ 1 rfl rfl rfl rfl).1,
   (IsContractPaused_decodes_ok_response (sampleHandler (okOutcome "ok" [[0]]))
      (sampleWorld []) ⟨some ⟨[[0]], "ok"⟩⟩ ⟨[[0]], "ok"⟩ 1 rfl rfl rfl rfl).1,
   (IsContractPaused_decodes_ok_response (sampleHandler (okOutcome "ok" [[2]]))
      (sampleWorld []) ⟨some ⟨[[2]], "ok"⟩⟩ ⟨[[2]], "ok"⟩ 1 rfl rfl rfl rfl).1,
   (IsContractPaused_decodes_ok_response (sampleHandler (okOutcome "ok" [[], [1]]))
      (sampleWorld []) ⟨some ⟨[[], [1]], "ok"⟩⟩ ⟨[[], [1]], "ok"⟩ 1 rfl rfl rfl rfl).2.2.1
      [[1]] rfl,
   (IsContractPaused_decodes_ok_response (sampleHandler (okOutcome "ok" []))
      (sampleWorld []) ⟨some ⟨[], "ok"⟩⟩ ⟨[], "ok"⟩ 1 rfl rfl rfl rfl).2.1 rfl⟩

/-- C7, as stated, fails: over an empty cache, a `contract not found` response (step 4) and
an `execution failed` response (step 5) both make `IsContractPaused` return `(true, nil)`,
yet the cache is still empty afterwards, `Get` on `isPaused` still misses, and the calls
made are one `Get` and one query, no `Set`. -/
theorem IsContractPaused_fail_safe_true_not_cached :
    IsContractPaused (sampleHandler (okOutcome "contract not found" [])) (sampleWorld [])
        = some ((true, none),
            { cache := [], chain := 1,
              trace := [Event.cacheGet "isPaused",
                Event.vmQuery ⟨"erd1qqqq", "isPaused", "erd1qqqq", "0", []⟩] })
      ∧ IsContractPaused (sampleHandler (okOutcome "execution failed" [[1]])) (sampleWorld [])
        = some ((true, none),
            { cache := [], chain := 1,
              trace := [Event.cacheGet "isPaused",
                Event.vmQuery ⟨"erd1qqqq", "isPaused", "erd1qqqq", "0", []⟩] })
      ∧ listCacher.Get [] keyIsPaused = (Any.nil, false) :=
  ⟨by decide, by decide, by decide⟩

/-- C7, amended: on a cache miss with no transport error, a boolean decoded from an `ok`
response (step 6) is returned with no error and stored in the cache under key `isPaused`
before the call returns: `Set` is the last call made. When the response carries no data or
its return code is not `ok` (steps 4 and 5), `(true, nil)` is returned and the cache is
left as it was. -/
theorem IsContractPaused_stores_decoded_flag {σ π : Type} (cqh : contractQueryHandler σ π)
    (w : World σ π) (res : VmValuesResponseData) (chain : π)
    (hmiss : (cqh.cacher.Get w.cache keyIsPaused).2 = false)
    (hquery : cqh.blockchainDataProvider.ExecuteVMQuery w.chain (isPausedRequest cqh)
      = ((some res, none), chain)) :
    IsContractPaused cqh w =
      match res.Data with
      | none => some ((true, none), afterMiss w keyIsPaused (isPausedRequest cqh) chain)
      | some d =>
        if d.ReturnCode = returnCodeOk then
          some ((pausedFlagSpec d.ReturnData, none),
            { cache := cqh.cacher.Set w.cache keyIsPaused (Any.bool (pausedFlagSpec d.ReturnData))
              chain := chain
              trace := w.trace ++ [Event.cacheGet keyIsPaused,
                Event.vmQuery (isPausedRequest cqh),
                Event.cacheSet keyIsPaused (Any.bool (pausedFlagSpec d.ReturnData))] })
        else
          some ((true, none), afterMiss w keyIsPaused (isPausedRequest cqh) chain) := by
  obtain ⟨data⟩ := res
  cases data with
  | none => exact IsContractPaused_miss_nodata cqh w ⟨none⟩ chain hmiss hquery rfl
  | some d =>
    by_cases hcode : d.ReturnCode = returnCodeOk
    · rw [IsContractPaused_miss_ok cqh w ⟨some d⟩ d chain hmiss hquery rfl hcode]
      simp [hcode, cacherSet, afterMiss]
    · rw [IsContractPaused_miss_notok cqh w ⟨some d⟩ d chain hmiss hquery rfl hcode]
      simp [hcode]

/-- Witness for C7 amended: an `ok` response with first byte 1 stores `true` under
`isPaused`, and the list cache then returns it. -/
theorem IsContractPaused_stores_decoded_flag_witness :
    IsContractPaused (sampleHandler (okOutcome "ok" [[1]])) (sampleWorld [])
        = some ((true, none),
            { cache := [("isPaused", Any.bool true)], chain := 1,
              trace := [Event.cacheGet "isPaused",
                Event.vmQuery ⟨"erd1qqqq", "isPaused", "erd1qqqq", "0", []⟩,
                Event.cacheSet "isPaused" (Any.bool true)] })
      ∧ listCacher.Get [("isPaused", Any.bool true)] keyIsPaused = (Any.bool true, true) :=
  ⟨IsContractPaused_stores_decoded_flag (sampleHandler (okOutcome "ok" [[1]]))
      (sampleWorld []) ⟨some ⟨[[1]], "ok"⟩⟩ 1 rfl rfl, by decide⟩

/-- C8: if the cache holds a boolean under `isPaused` (an unsigned 64-bit integer under
`creditsPerEgld`), `IsContractPaused` (`GetCreditsPerEGLD`) returns that value with a nil
error; the only call made is the `Get`, so the transport is not called and keeps its
state, and the cache is left as it was. The transport of the handler is arbitrary. -/
theorem cache_hit_short_circuits_transport {σ π : Type} (cqh : contractQueryHandler σ π)
    (w : World σ π) :
    (∀ b, cqh.cacher.Get w.cache keyIsPaused = (Any.bool b, true) →
        IsContractPaused cqh w
          = some ((b, none),
              { cache := w.cache, chain := w.chain,
                trace := w.trace ++ [Event.cacheGet keyIsPaused] }))
      ∧ (∀ n, cqh.cacher.Get w.cache keyCreditsPerEgld = (Any.uint64 n, true) →
        GetCreditsPerEGLD cqh w
          = some ((n, none),
              { cache := w.cache, chain := w.chain,
                trace := w.trace ++ [Event.cacheGet keyCreditsPerEgld] })) :=
  ⟨fun b hb => IsContractPaused_hit cqh w b hb,
   fun n hn => GetCreditsPerEGLD_hit cqh w n hn⟩

/-- Witness for C8: the cache holds `false` and 7; the transport would fail with an error,
or would answer `ok` with first byte 1; the cached values are returned all the same. -/
theorem cache_hit_short_circuits_transport_witness :
    IsContractPaused (sampleHandler (none, some "timeout"))
        (sampleWorld [("isPaused", Any.bool false), ("creditsPerEgld", Any.uint64 7)])
        = some ((false, none),
            { cache := [("isPaused", Any.bool false), ("creditsPerEgld", Any.uint64 7)],
              chain := 0, trace := [] ++ [Event.cacheGet keyIsPaused] })
      ∧ GetCreditsPerEGLD (sampleHandler (okOutcome "ok" [[1]]))
        (sampleWorld [("isPaused", Any.bool false), ("creditsPerEgld", Any.uint64 7)])
        = some ((7, none),
            { cache := [("isPaused", Any.bool false), ("creditsPerEgld", Any.uint64 7)],
              chain := 0, trace := [] ++ [Event.cacheGet keyCreditsPerEgld] }) :=
  ⟨(cache_hit_short_circuits_transport (sampleHandler (none, some "timeout"))
      (sampleWorld [("isPaused", Any.bool false), ("creditsPerEgld", Any.uint64 7)])).1
      false (by decide),
   (cache_hit_short_circuits_transport (sampleHandler (okOutcome "ok" [[1]]))
      (sampleWorld [("isPaused", Any.bool false), ("creditsPerEgld", Any.uint64 7)])).2
      7 (by decide)⟩

/-- C9: on a cache miss of `GetCreditsPerEGLD`, a transport error `e` is returned as
`(0, e)`, the error unchanged; a successful response whose first return-data element
reads as more than `2^64-1` is returned as `(0, decode error)`. In both cases the cache is
the one the call started with and the calls made are the `Get` and the query, no `Set`. -/
theorem GetCreditsPerEGLD_propagates_errors {σ π : Type} (cqh : contractQueryHandler σ π)
    (w : World σ π) (out : QueryOutcome) (chain : π)
    (hmiss : (cqh.cacher.Get w.cache keyCreditsPerEgld).2 = false)
    (hquery : cqh.blockchainDataProvider.ExecuteVMQuery w.chain (creditsPerEgldRequest cqh)
      = (out, chain)) :
    (∀ e, out.2 = some e →
        GetCreditsPerEGLD cqh w
          = some ((0, some e),
              { cache := w.cache, chain := chain,
                trace := w.trace ++ [Event.cacheGet keyCreditsPerEgld,
                  Event.vmQuery (creditsPerEgldRequest cqh)] }))
      ∧ (∀ res d bytes rest, out = (some res, none) → res.Data = some d →
          d.ReturnData = bytes :: rest → 2 ^ 64 - 1 < bigEndianValue bytes →
        GetCreditsPerEGLD cqh w
          = some ((0, some (errNotUint64 (bigEndianValue bytes))),
              { cache := w.cache, chain := chain,
                trace := w.trace ++ [Event.cacheGet keyCreditsPerEgld,
                  Event.vmQuery (creditsPerEgldRequest cqh)] })) := by
  obtain ⟨o1, o2⟩ := out
  constructor
  · intro e he
    simp only at he
    subst he
    exact GetCreditsPerEGLD_miss_err cqh w o1 e chain hmiss hquery
  · intro res d bytes rest hout hdata hret hbig
    cases hout
    exact GetCreditsPerEGLD_miss_overflow cqh w res d chain bytes rest hmiss hquery hdata hret
      (by omega)

/-- Witness for C9: a transport that times out, and a response carrying the nine-byte
encoding of `2^64`. -/
theorem GetCreditsPerEGLD_propagates_errors_witness :
    GetCreditsPerEGLD (sampleHandler (none, some "timeout")) (sampleWorld [])
        = some ((0, some "timeout"),
            { cache := [], chain := 1,
              trace := [] ++ [Event.cacheGet keyCreditsPerEgld,
                Event.vmQuery (creditsPerEgldRequest (sampleHandler (none, some "timeout")))] })
      ∧ GetCreditsPerEGLD (sampleHandler (okOutcome "ok" [[1, 0, 0, 0, 0, 0, 0, 0, 0]]))
          (sampleWorld [])
        = some ((0, some (errNotUint64 (bigEndianValue [1, 0, 0, 0, 0, 0, 0, 0, 0]))),
            { cache := [], chain := 1,
              trace := [] ++ [Event.cacheGet keyCreditsPerEgld,
                Event.vmQuery (creditsPerEgldRequest
                  (sampleHandler (okOutcome "ok" [[1, 0, 0, 0, 0, 0, 0, 0, 0]])))] }) :=
  ⟨(GetCreditsPerEGLD_propagates_errors (sampleHandler (none, some "timeout"))
      (sampleWorld []) (none, some "timeout") 1 rfl rfl).1 "timeout" rfl,
   (GetCreditsPerEGLD_propagates_errors
      (sampleHandler (okOutcome "ok" [[1, 0, 0, 0, 0, 0, 0, 0, 0]])) (sampleWorld [])
      (okOutcome "ok" [[1, 0, 0, 0, 0, 0, 0, 0, 0]]) 1 rfl rfl).2
      ⟨some ⟨[[1, 0, 0, 0, 0, 0, 0, 0, 0]], "ok"⟩⟩ ⟨[[1, 0, 0, 0, 0, 0, 0, 0, 0]], "ok"⟩
      [1, 0, 0, 0, 0, 0, 0, 0, 0] [] rfl rfl rfl (by decide)⟩

/-- C10: on a cache miss of `GetCreditsPerEGLD` with a successful transport call whose first
return-data element is the big-endian encoding of `n <= 2^64-1`, the call returns
`(n, nil)` and its last call is `Set(creditsPerEgld, n)`; with a cache whose `Get` returns
the last `Set`, the cache then holds `n` under `creditsPerEgld` and an immediately
following call returns `(n, nil)` again, from the cache alone. -/
theorem GetCreditsPerEGLD_success_is_cached {σ π : Type} (cqh : contractQueryHandler σ π)
    (w : World σ π) (res : VmValuesResponseData) (d : VMOutputApi) (chain : π)
    (bytes : List UInt8) (rest : List (List UInt8)) (n : Nat)
    (hmiss : (cqh.cacher.Get w.cache keyCreditsPerEgld).2 = false)
    (hquery : cqh.blockchainDataProvider.ExecuteVMQuery w.chain (creditsPerEgldRequest cqh)
      = ((some res, none), chain))
    (hdata : res.Data = some d) (hret : d.ReturnData = bytes :: rest)
    (hval : bigEndianValue bytes = n) (hn : n ≤ 2 ^ 64 - 1) :
    ∃ w', GetCreditsPerEGLD cqh w = some ((n, none), w')
      ∧ w'.cache = cqh.cacher.Set w.cache keyCreditsPerEgld (Any.uint64 n)
      ∧ w'.trace = w.trace ++ [Event.cacheGet keyCreditsPerEgld,
          Event.vmQuery (creditsPerEgldRequest cqh),
          Event.cacheSet keyCreditsPerEgld (Any.uint64 n)]
      ∧ ((∀ s k v, cqh.cacher.Get (cqh.cacher.Set s k v) k = (v, true)) →
          cqh.cacher.Get w'.cache keyCreditsPerEgld = (Any.uint64 n, true)
          ∧ GetCreditsPerEGLD cqh w'
            = some ((n, none),
                { cache := w'.cache, chain := w'.chain,
                  trace := w'.trace ++ [Event.cacheGet keyCreditsPerEgld] })) := by
  subst hval
  have hsmall : bigEndianValue bytes < 2 ^ 64 := by omega
  refine ⟨_, GetCreditsPerEGLD_miss_ok cqh w res d chain bytes rest hmiss hquery hdata hret
    hsmall, rfl, ?_, ?_⟩
  · simp [cacherSet, afterMiss]
  · intro hlaw
    have hget : cqh.cacher.Get
        (cacherSet cqh (afterMiss w keyCreditsPerEgld (creditsPerEgldRequest cqh) chain)
          keyCreditsPerEgld (Any.uint64 (bigEndianValue bytes))).cache keyCreditsPerEgld
        = (Any.uint64 (bigEndianValue bytes), true) :=
      hlaw w.cache keyCreditsPerEgld (Any.uint64 (bigEndianValue bytes))
    exact ⟨hget, GetCreditsPerEGLD_hit cqh _ _ hget⟩

/-- Witness for C10: the response carries `[0x00, 0x64]`; the first call returns 100 and
stores it, and the second call, on the world the first one left, returns 100 after a
single `Get`. -/
theorem GetCreditsPerEGLD_success_is_cached_witness :
    GetCreditsPerEGLD (sampleHandler (okOutcome "ok" [[0x00, 0x64]])) (sampleWorld [])
        = some ((100, none),
            { cache := [("creditsPerEgld", Any.uint64 100)], chain := 1,
              trace := [Event.cacheGet "creditsPerEgld",
                Event.vmQuery ⟨"erd1qqqq", "getCreditsPerEgld", "erd1qqqq", "0", []⟩,
                Event.cacheSet "creditsPerEgld" (Any.uint64 100)] })
      ∧ (∃ w', GetCreditsPerEGLD (sampleHandler (okOutcome "ok" [[0x00, 0x64]]))
            (sampleWorld []) = some ((100, none), w')
          ∧ GetCreditsPerEGLD (sampleHandler (okOutcome "ok" [[0x00, 0x64]])) w'
            = some ((100, none),
                { cache := w'.cache, chain := w'.chain,
                  trace := w'.trace ++ [Event.cacheGet keyCreditsPerEgld] })) := by
  obtain ⟨w', h1, _, _, h2⟩ :=
    GetCreditsPerEGLD_success_is_cached (sampleHandler (okOutcome "ok" [[0x00, 0x64]]))
      (sampleWorld []) ⟨some ⟨[[0x00, 0x64]], "ok"⟩⟩ ⟨[[0x00, 0x64]], "ok"⟩ 1 [0x00, 0x64] []
      100 rfl rfl rfl rfl (by decide) (by decide)
  exact ⟨by decide, w', h1, (h2 listCacher_get_set).2⟩

/-- C11: `GetCredits` never touches the cache. For every identifier, cache state and
transport outcome, a call that returns leaves the cache it found and adds exactly one call
to the trace, the query (no `Get`, no `Set`). The result is `(0, e)` when the transport
returns the error `e`, and `vmValueToUint64Decoder` of the return data when the response
carries data; it is the same for any two worlds that differ only in the cache. -/
theorem GetCredits_never_touches_cache {σ π : Type} (cqh : contractQueryHandler σ π)
    (w : World σ π) (id : Nat) :
    (∀ r, GetCredits cqh w id = some r →
        r.2.cache = w.cache
        ∧ r.2.trace = w.trace ++ [Event.vmQuery (getCreditsRequest cqh id)])
      ∧ (∀ res e chain,
          cqh.blockchainDataProvider.ExecuteVMQuery w.chain (getCreditsRequest cqh id)
            = ((res, some e), chain) →
          GetCredits cqh w id
            = some ((0, some e),
                { cache := w.cache, chain := chain,
                  trace := w.trace ++ [Event.vmQuery (getCreditsRequest cqh id)] }))
      ∧ (∀ res d chain,
          cqh.blockchainDataProvider.ExecuteVMQuery w.chain (getCreditsRequest cqh id)
            = ((some res, none), chain) → res.Data = some d →
          GetCredits cqh w id
            = some (vmValueToUint64Decoder d.ReturnData,
                { cache := w.cache, chain := chain,
                  trace := w.trace ++ [Event.vmQuery (getCreditsRequest cqh id)] }))
      ∧ (∀ cache, (GetCredits cqh { w with cache := cache } id).map Prod.fst
          = (GetCredits cqh w id).map Prod.fst) := by
  refine ⟨?_, ?_, ?_, ?_⟩
  · intro r h
    rw [GetCredits_frame cqh w id r h]
    exact ⟨rfl, rfl⟩
  · intro res e chain hq
    exact GetCredits_err cqh w id res e chain hq
  · intro res d chain hq hd
    exact GetCredits_data cqh w id res d chain hq hd
  · intro cache
    simp only [GetCredits, executeVMQuery]
    rcases cqh.blockchainDataProvider.ExecuteVMQuery w.chain
      { Address := cqh.contractBech32Address, FuncName := "getCredits",
        Args := [ensureEvenHex (sprintfHex id)], CallValue := "0",
        CallerAddr := cqh.contractBech32Address } with ⟨⟨res, err⟩, chain⟩
    cases err with
    | some e => rfl
    | none =>
      cases res with
      | none => rfl
      | some res =>
        obtain ⟨data⟩ := res
        cases data with
        | none => rfl
        | some d => rfl

/-- Witness for C11: a cache holding both keys is left as it is, by a call that decodes 100
and by a call whose transport times out. -/
theorem GetCredits_never_touches_cache_witness :
    GetCredits (sampleHandler (okOutcome "ok" [[0x00, 0x64]]))
        (sampleWorld [("isPaused", Any.bool false), ("creditsPerEgld", Any.uint64 7)]) 255
        = some ((100, none),
            { cache := [("isPaused", Any.bool false), ("creditsPerEgld", Any.uint64 7)],
              chain := 1,
              trace := [Event.vmQuery ⟨"erd1qqqq", "getCredits", "erd1qqqq", "0", ["ff"]⟩] })
      ∧ GetCredits (sampleHandler (none, some "timeout")) (sampleWorld []) 255
        = some ((0, some "timeout"),
            { cache := [], chain := 1,
              trace := [] ++ [Event.vmQuery
                (getCreditsRequest (sampleHandler (none, some "timeout")) 255)] }) :=
  ⟨by decide,
   (GetCredits_never_touches_cache (sampleHandler (none, some "timeout")) (sampleWorld [])
      255).2.1 none "timeout" 1 rfl⟩

/-- C12: `NewContractQueryHandler` returns a nil handler and an error whenever the
blockchain data provider is nil, or the contract address is the empty string, or the
cacher is nil; in every other case it returns no error and a handler that stores the given
provider, address and cacher. -/
theorem NewContractQueryHandler_checks_arguments {σ π : Type} (errNilCache : Error)
    (provider : Option (BlockchainDataProvider π)) (address : String)
    (cacher : Option (Cacher σ)) :
    ((provider = none ∨ address = "" ∨ cacher = none) →
        (NewContractQueryHandler errNilCache provider address cacher).1 = none
        ∧ (NewContractQueryHandler errNilCache provider address cacher).2 ≠ none)
      ∧ (∀ p c, provider = some p → address ≠ "" → cacher = some c →
          NewContractQueryHandler errNilCache provider address cacher
            = (some { blockchainDataProvider := p, contractBech32Address := address,
                      cacher := c }, none)) := by
  have hsize : (address.utf8ByteSize == 0) = decide (address = "") := by
    by_cases h : address = ""
    · simp [h]
      rfl
    · have h2 : address.utf8ByteSize ≠ 0 := fun h0 => h ((utf8ByteSize_eq_zero_iff address).mp h0)
      simp [h, h2]
  constructor
  · intro hbad
    cases provider with
    | none => simp [NewContractQueryHandler]
    | some p =>
      by_cases haddr : address = ""
      · subst haddr
        have h0 : ("" : String).utf8ByteSize = 0 := rfl
        simp [NewContractQueryHandler, h0]
      · cases cacher with
        | none => simp [NewContractQueryHandler, hsize, haddr]
        | some c => simp [haddr] at hbad
  · intro p c hp haddr hc
    subst hp hc
    simp [NewContractQueryHandler, hsize, haddr]

/-- Witness for C12: the list cache and a constant transport are accepted with a non-empty
address, and a nil cacher is refused with the error handed in for `errNilCache`. -/
theorem NewContractQueryHandler_checks_arguments_witness :
    NewContractQueryHandler "nil cache" (some (constProvider (none, none))) "erd1qqqq"
        (some listCacher)
        = (some { blockchainDataProvider := constProvider (none, none),
                  contractBech32Address := "erd1qqqq", cacher := listCacher }, none)
      ∧ ((NewContractQueryHandler "nil cache" (some (constProvider (none, none))) "erd1qqqq"
            (none : Option (Cacher (List (String × Any))))).1 = none
        ∧ (NewContractQueryHandler "nil cache" (some (constProvider (none, none))) "erd1qqqq"
            (none : Option (Cacher (List (String × Any))))).2 ≠ none) :=
  ⟨(NewContractQueryHandler_checks_arguments "nil cache" (some (constProvider (none, none)))
      "erd1qqqq" (some listCacher)).2 _ _ rfl (by decide) rfl,
   (NewContractQueryHandler_checks_arguments "nil cache" (some (constProvider (none, none)))
      "erd1qqqq" none).1 (Or.inr (Or.inr rfl))⟩

/-- C13: the decoder maps the no-value case to zero: on an empty sequence of byte arrays
`vmValueToUint64Decoder` returns `(0, nil)`, not an error. -/
theorem vmValueToUint64Decoder_empty_is_zero :
    vmValueToUint64Decoder [] = (0, none) ∧ (vmValueToUint64Decoder []).2 = none :=
  ⟨rfl, rfl⟩

/-- C18: every query the handler issues has `Address` and `CallerAddr` equal to the
handler's contract address and `CallValue` equal to `"0"`. A returning `IsContractPaused`
on a cache miss has issued exactly one query, with function name `isPaused` and no
arguments; a returning `GetCreditsPerEGLD` on a cache miss exactly one, with function name
`getCreditsPerEgld` and no arguments; a returning `GetCredits` exactly one, with function
name `getCredits` and exactly one argument. -/
theorem handler_queries_are_well_formed {σ π : Type} (cqh : contractQueryHandler σ π)
    (w : World σ π) (id : Nat) :
    (∀ r, IsContractPaused cqh w = some r → (cqh.cacher.Get w.cache keyIsPaused).2 = false →
        queriesOf r.2.trace = queriesOf w.trace ++
          [{ Address := cqh.contractBech32Address, FuncName := "isPaused",
             CallerAddr := cqh.contractBech32Address, CallValue := "0", Args := [] }])
      ∧ (∀ r, GetCreditsPerEGLD cqh w = some r →
          (cqh.cacher.Get w.cache keyCreditsPerEgld).2 = false →
        queriesOf r.2.trace = queriesOf w.trace ++
          [{ Address := cqh.contractBech32Address, FuncName := "getCreditsPerEgld",
             CallerAddr := cqh.contractBech32Address, CallValue := "0", Args := [] }])
      ∧ (∀ r, GetCredits cqh w id = some r →
        queriesOf r.2.trace = queriesOf w.trace ++
          [{ Address := cqh.contractBech32Address, FuncName := "getCredits",
             CallerAddr := cqh.contractBech32Address, CallValue := "0",
             Args := [ensureEvenHex (sprintfHex id)] }]) := by
  refine ⟨?_, ?_, ?_⟩
  · intro r h hmiss
    rcases IsContractPaused_cases cqh w r h with ⟨b, hget, _⟩ | ⟨_, chain, hr⟩ | ⟨_, chain, b, hr⟩
    · rw [hget] at hmiss
      cases hmiss
    · rw [hr]
      simp [afterMiss, queriesOf_append, queriesOf, isPausedRequest, isPausedFunc]
    · rw [hr]
      simp [cacherSet, afterMiss, queriesOf_append, queriesOf, isPausedRequest, isPausedFunc]
  · intro r h hmiss
    rcases GetCreditsPerEGLD_cases cqh w r h with
      ⟨n, hget, _⟩ | ⟨_, chain, hr⟩ | ⟨_, chain, n, _, hr⟩
    · rw [hget] at hmiss
      cases hmiss
    · rw [hr]
      simp [afterMiss, queriesOf_append, queriesOf, creditsPerEgldRequest, creditsPerEgldFunc]
    · rw [hr]
      simp [cacherSet, afterMiss, queriesOf_append, queriesOf, creditsPerEgldRequest,
        creditsPerEgldFunc]
  · intro r h
    rw [GetCredits_frame cqh w id r h]
    simp [queriesOf_append, queriesOf, getCreditsRequest]

/-- Witness for C18: over an empty cache each accessor returns, after one query of the
stated shape. -/
theorem handler_queries_are_well_formed_witness :
    (∃ r, IsContractPaused (sampleHandler (okOutcome "ok" [[1]])) (sampleWorld []) = some r
        ∧ queriesOf r.2.trace = [⟨"erd1qqqq", "isPaused", "erd1qqqq", "0", []⟩])
      ∧ (∃ r, GetCreditsPerEGLD (sampleHandler (okOutcome "ok" [[1]])) (sampleWorld []) = some r
        ∧ queriesOf r.2.trace = [⟨"erd1qqqq", "getCreditsPerEgld", "erd1qqqq", "0", []⟩])
      ∧ (∃ r, GetCredits (sampleHandler (okOutcome "ok" [[1]])) (sampleWorld []) 4096 = some r
        ∧ queriesOf r.2.trace = [⟨"erd1qqqq", "getCredits", "erd1qqqq", "0", ["1000"]⟩]) := by
  have h1 : IsContractPaused (sampleHandler (okOutcome "ok" [[1]])) (sampleWorld [])
      = some ((true, none),
          { cache := [("isPaused", Any.bool true)], chain := 1,
            trace := [Event.cacheGet "isPaused",
              Event.vmQuery ⟨"erd1qqqq", "isPaused", "erd1qqqq", "0", []⟩,
              Event.cacheSet "isPaused" (Any.bool true)] }) := by decide
  have h2 : GetCreditsPerEGLD (sampleHandler (okOutcome "ok" [[1]])) (sampleWorld [])
      = some ((1, none),
          { cache := [("creditsPerEgld", Any.uint64 1)], chain := 1,
            trace := [Event.cacheGet "creditsPerEgld",
              Event.vmQuery ⟨"erd1qqqq", "getCreditsPerEgld", "erd1qqqq", "0", []⟩,
              Event.cacheSet "creditsPerEgld" (Any.uint64 1)] }) := by decide
  have h3 : GetCredits (sampleHandler (okOutcome "ok" [[1]])) (sampleWorld []) 4096
      = some ((1, none),
          { cache := [], chain := 1,
            trace := [Event.vmQuery ⟨"erd1qqqq", "getCredits", "erd1qqqq", "0", ["1000"]⟩] }) := by
    decide
  have hall := handler_queries_are_well_formed (sampleHandler (okOutcome "ok" [[1]]))
    (sampleWorld []) 4096
  exact ⟨⟨_, h1, hall.1 _ h1 (by decide)⟩, ⟨_, h2, hall.2.1 _ h2 (by decide)⟩,
    ⟨_, h3, (hall.2.2 _ h3).trans (by decide)⟩⟩

/-- C19: `GetCreditsPerEGLD` and `GetCredits` do not inspect the return code. Two
transports that answer without error with the same return data, under return codes
`code1` and `code2`, give the same result and the same final world (cache and calls made),
whatever the two codes are. In particular, on a cache miss a `contract not found` response
with empty return data makes `GetCreditsPerEGLD` return `(0, nil)` and store 0 under
`creditsPerEgld`. -/
theorem return_code_is_not_inspected {σ π : Type} (p1 p2 : BlockchainDataProvider π)
    (address : String) (cacher : Cacher σ) (w : World σ π) (id : Nat)
    (returnData : List (List UInt8)) (code1 code2 : String) (chain : π) :
    (p1.ExecuteVMQuery w.chain
          (creditsPerEgldRequest (⟨p1, address, cacher⟩ : contractQueryHandler σ π)) = (okOutcome code1 returnData, chain) →
        p2.ExecuteVMQuery w.chain
          (creditsPerEgldRequest (⟨p2, address, cacher⟩ : contractQueryHandler σ π)) = (okOutcome code2 returnData, chain) →
        GetCreditsPerEGLD ⟨p1, address, cacher⟩ w = GetCreditsPerEGLD ⟨p2, address, cacher⟩ w)
      ∧ (p1.ExecuteVMQuery w.chain
          (getCreditsRequest (⟨p1, address, cacher⟩ : contractQueryHandler σ π) id) = (okOutcome code1 returnData, chain) →
        p2.ExecuteVMQuery w.chain
          (getCreditsRequest (⟨p2, address, cacher⟩ : contractQueryHandler σ π) id) = (okOutcome code2 returnData, chain) →
        GetCredits ⟨p1, address, cacher⟩ w id = GetCredits ⟨p2, address, cacher⟩ w id)
      ∧ ((cacher.Get w.cache keyCreditsPerEgld).2 = false →
        p1.ExecuteVMQuery w.chain
          (creditsPerEgldRequest (⟨p1, address, cacher⟩ : contractQueryHandler σ π))
            = (okOutcome contractNotFoundStatus [], chain) →
        GetCreditsPerEGLD ⟨p1, address, cacher⟩ w
          = some ((0, none),
              { cache := cacher.Set w.cache keyCreditsPerEgld (Any.uint64 0)
                chain := chain
                trace := w.trace ++ [Event.cacheGet keyCreditsPerEgld,
                  Event.vmQuery (creditsPerEgldRequest (⟨p1, address, cacher⟩ : contractQueryHandler σ π)),
                  Event.cacheSet keyCreditsPerEgld (Any.uint64 0)] })) := by
  refine ⟨?_, ?_, ?_⟩
  · intro h1 h2
    simp only [creditsPerEgldRequest, okOutcome] at h1 h2
    simp [GetCreditsPerEGLD, cacherGet, executeVMQuery, h1, h2, cacherSet]
  · intro h1 h2
    simp only [getCreditsRequest, okOutcome] at h1 h2
    simp [GetCredits, executeVMQuery, h1, h2]
  · intro hmiss h1
    simp only [creditsPerEgldRequest, okOutcome] at h1
    simp [GetCreditsPerEGLD, cacherGet, hmiss, executeVMQuery, h1, vmValueToUint64Decoder,
      cacherSet, creditsPerEgldRequest]

/-- Witness for C19: return data `[0x00, 0x64]` under the codes `ok` and `execution failed`,
and a `contract not found` response with no return data. -/
theorem return_code_is_not_inspected_witness :
    GetCreditsPerEGLD (sampleHandler (okOutcome "ok" [[0x00, 0x64]])) (sampleWorld [])
        = GetCreditsPerEGLD (sampleHandler (okOutcome "execution failed" [[0x00, 0x64]]))
            (sampleWorld [])
      ∧ GetCredits (sampleHandler (okOutcome "ok" [[0x00, 0x64]])) (sampleWorld []) 5
        = GetCredits (sampleHandler (okOutcome "execution failed" [[0x00, 0x64]]))
            (sampleWorld []) 5
      ∧ GetCreditsPerEGLD (sampleHandler (okOutcome "execution failed" [[0x00, 0x64]]))
            (sampleWorld [])
        = some ((100, none),
            { cache := [("creditsPerEgld", Any.uint64 100)], chain := 1,
              trace := [Event.cacheGet "creditsPerEgld",
                Event.vmQuery ⟨"erd1qqqq", "getCreditsPerEgld", "erd1qqqq", "0", []⟩,
                Event.cacheSet "creditsPerEgld" (Any.uint64 100)] })
      ∧ GetCreditsPerEGLD (sampleHandler (okOutcome "contract not found" [])) (sampleWorld [])
        = some ((0, none),
            { cache := [("creditsPerEgld", Any.uint64 0)], chain := 1,
              trace := [Event.cacheGet "creditsPerEgld",
                Event.vmQuery ⟨"erd1qqqq", "getCreditsPerEgld", "erd1qqqq", "0", []⟩,
                Event.cacheSet "creditsPerEgld" (Any.uint64 0)] }) :=
  ⟨(return_code_is_not_inspected (constProvider (okOutcome "ok" [[0x00, 0x64]]))
      (constProvider (okOutcome "execution failed" [[0x00, 0x64]])) "erd1qqqq" listCacher
      (sampleWorld []) 5 [[0x00, 0x64]] "ok" "execution failed" 1).1 rfl rfl,
   (return_code_is_not_inspected (constProvider (okOutcome "ok" [[0x00, 0x64]]))
      (constProvider (okOutcome "execution failed" [[0x00, 0x64]])) "erd1qqqq" listCacher
      (sampleWorld []) 5 [[0x00, 0x64]] "ok" "execution failed" 1).2.1 rfl rfl,
   by decide,
   (return_code_is_not_inspected (constProvider (okOutcome "contract not found" []))
      (constProvider (okOutcome "contract not found" [])) "erd1qqqq" listCacher
      (sampleWorld []) 5 [] "ok" "ok" 1).2.2 rfl rfl⟩

/-- C20, evaluated at the failing input: over an empty cache, with a transport that returns
a response whose `Data` is nil and a nil error, `GetCreditsPerEGLD` and `GetCredits`
dereference the nil `Data` and panic (the result `none`), while `IsContractPaused`, which
tests `res.Data == nil`, returns `(true, nil)` on the same response. -/
theorem credits_accessors_panic_on_nil_data :
    GetCreditsPerEGLD (sampleHandler (some { Data := none }, none)) (sampleWorld []) = none
      ∧ GetCredits (sampleHandler (some { Data := none }, none)) (sampleWorld []) 1 = none
      ∧ (IsContractPaused (sampleHandler (some { Data := none }, none)) (sampleWorld [])).map
          Prod.fst = some (true, none) :=
  ⟨by decide, by decide, by decide⟩

/-- C14: `GetConfig` is all-or-nothing on errors. For every error `e`: if the contract
handler's `IsContractPaused` returns `e`, `GetConfig` returns `(nil, e)` at once, in the
state that call left, without calling `GetCreditsPerEGLD`; if `IsContractPaused` succeeds
and `GetCreditsPerEGLD` returns `e`, `GetConfig` returns `(nil, e)`. No snapshot is
returned in either case and the error is the constituent's own. -/
theorem GetConfig_all_or_nothing {ω : Type} (ch : configHandler ω) (s : ω) (e : Error) :
    (∀ b s1, ch.contractHandler.IsContractPaused s = ((b, some e), s1) →
        GetConfig ch s = ((none, some e), s1))
      ∧ (∀ b s1 r s2, ch.contractHandler.IsContractPaused s = ((b, none), s1) →
          ch.contractHandler.GetCreditsPerEGLD s1 = ((r, some e), s2) →
        GetConfig ch s = ((none, some e), s2)) := by
  constructor
  · intro b s1 h1
    simp [GetConfig, h1]
  · intro b s1 r s2 h1 h2
    simp [GetConfig, h1, h2]

/-- Witness for C14: the two error scenarios of the tests; in the first the stub has
received the call to `IsContractPaused` only. -/
theorem GetConfig_all_or_nothing_witness :
    (∃ ch, NewConfigHandler "wallet_url" "explorer_url"
          (some (ContractHandlerStub (false, some "contract paused check error") (0, none)))
          float64_0_05 = (some ch, none)
        ∧ GetConfig ch [] = ((none, some "contract paused check error"), ["IsContractPaused"]))
      ∧ (∃ ch, NewConfigHandler "wallet_url" "explorer_url"
          (some (ContractHandlerStub (false, none) (0, some "get requests error")))
          float64_0_05 = (some ch, none)
        ∧ GetConfig ch [] = ((none, some "get requests error"),
            ["IsContractPaused", "GetCreditsPerEGLD"])) :=
  ⟨⟨_, rfl, (GetConfig_all_or_nothing _ [] "contract paused check error").1 false _ rfl⟩,
   ⟨_, rfl, (GetConfig_all_or_nothing _ [] "get requests error").2 false _ 0 _ rfl rfl⟩⟩

/-- C15: for every wallet URL `w`, explorer URL `e`, minimum balance `m`, paused flag `p` and
rate `r`: when the contract handler's `IsContractPaused` returns `(p, nil)` and its
`GetCreditsPerEGLD` then returns `(r, nil)`, the handler built by `NewConfigHandler` from
`(w, e, handler, m)` is built with no error and its `GetConfig` returns no error and the
snapshot of exactly five fields `isContractPaused = p`, `creditsPerEGLD = r`,
`walletURL = w`, `explorerURL = e`, `minimumBalance = m`. -/
theorem GetConfig_assembles_snapshot {ω : Type} (w e : String) (m : Nat) (p : Bool) (r : Nat)
    (handler : ContractHandler ω) (s s1 s2 : ω)
    (hpaused : handler.IsContractPaused s = ((p, none), s1))
    (hrate : handler.GetCreditsPerEGLD s1 = ((r, none), s2)) :
    ∃ ch snapshot, NewConfigHandler w e (some handler) m = (some ch, none)
      ∧ ch.walletURL = w ∧ ch.explorerURL = e ∧ ch.minimumBalance = m
      ∧ GetConfig ch s = ((some snapshot, none), s2)
      ∧ snapshot.length = 5
      ∧ snapshot.lookup "isContractPaused" = some (Any.bool p)
      ∧ snapshot.lookup "creditsPerEGLD" = some (Any.uint64 r)
      ∧ snapshot.lookup "walletURL" = some (Any.string w)
      ∧ snapshot.lookup "explorerURL" = some (Any.string e)
      ∧ snapshot.lookup "minimumBalance" = some (Any.float64 m) := by
  refine ⟨{ walletURL := w, explorerURL := e, contractHandler := handler, minimumBalance := m },
    [("isContractPaused", Any.bool p), ("creditsPerEGLD", Any.uint64 r),
     ("walletURL", Any.string w), ("explorerURL", Any.string e),
     ("minimumBalance", Any.float64 m)], rfl, rfl, rfl, rfl, ?_, rfl, ?_, ?_, ?_, ?_, ?_⟩
  · simp [GetConfig, hpaused, hrate]
  all_goals simp [List.lookup]

/-- Witness for C15: the success scenario of the tests, paused and rate 100, and a handler
built with empty URLs and a zero minimum balance. -/
theorem GetConfig_assembles_snapshot_witness :
    (∃ ch snapshot, NewConfigHandler "wallet_url" "explorer_url"
          (some (ContractHandlerStub (true, none) (100, none))) float64_0_05 = (some ch, none)
        ∧ ch.walletURL = "wallet_url" ∧ ch.explorerURL = "explorer_url"
        ∧ ch.minimumBalance = float64_0_05
        ∧ GetConfig ch [] = ((some snapshot, none), ["IsContractPaused", "GetCreditsPerEGLD"])
        ∧ snapshot.length = 5
        ∧ snapshot.lookup "isContractPaused" = some (Any.bool true)
        ∧ snapshot.lookup "creditsPerEGLD" = some (Any.uint64 100)
        ∧ snapshot.lookup "walletURL" = some (Any.string "wallet_url")
        ∧ snapshot.lookup "explorerURL" = some (Any.string "explorer_url")
        ∧ snapshot.lookup "minimumBalance" = some (Any.float64 float64_0_05))
      ∧ (GetConfig (⟨"", "", ContractHandlerStub (true, none) (100, none), 0⟩ :
            configHandler (List String)) []).1
          = (some [("isContractPaused", Any.bool true), ("creditsPerEGLD", Any.uint64 100),
              ("walletURL", Any.string ""), ("explorerURL", Any.string ""),
              ("minimumBalance", Any.float64 0)], none) :=
  ⟨GetConfig_assembles_snapshot "wallet_url" "explorer_url" float64_0_05 true 100
      (ContractHandlerStub (true, none) (100, none)) [] ["IsContractPaused"]
      ["IsContractPaused", "GetCreditsPerEGLD"] rfl rfl,
   by decide⟩

/-- C16: in a sequential run of handler operations over a cache that returns the last value
set and is touched by the handler only, a call records a `Set` on a key only if its own
`Get` on that key missed. Hence over the whole run each key is written at most once; a key
that is present keeps its value and is not written; and a boolean present under
`isPaused` (an unsigned integer present under `creditsPerEgld`) is what
`IsContractPaused` (`GetCreditsPerEGLD`) returns after the run. -/
theorem cache_entries_are_written_once {σ π : Type} (cqh : contractQueryHandler σ π)
    (hlaw : LastSetVisible cqh.cacher) (cs : List Call) (w w' : World σ π)
    (hrun : runCalls cqh cs w = some w') :
    (∀ c u u1, execCall cqh u c = some u1 →
        ∃ ev, u1.trace = u.trace ++ ev
          ∧ ∀ k v, Event.cacheSet k v ∈ ev →
              (cqh.cacher.Get u.cache k).2 = false ∧ Event.cacheGet k ∈ ev)
      ∧ (∀ k, setCount k w'.trace ≤ setCount k w.trace + 1)
      ∧ (∀ k v, cqh.cacher.Get w.cache k = (v, true) →
          cqh.cacher.Get w'.cache k = (v, true) ∧ setCount k w'.trace = setCount k w.trace)
      ∧ (∀ b, cqh.cacher.Get w.cache keyIsPaused = (Any.bool b, true) →
          IsContractPaused cqh w' = some ((b, none), afterHit w' keyIsPaused))
      ∧ (∀ n, cqh.cacher.Get w.cache keyCreditsPerEgld = (Any.uint64 n, true) →
          GetCreditsPerEGLD cqh w' = some ((n, none), afterHit w' keyCreditsPerEgld)) := by
  refine ⟨?_, ?_, ?_, ?_, ?_⟩
  · intro c u u1 hc
    rcases execCall_cases cqh u u1 c hc with
      ⟨ev, _, htrace, hno, _⟩ | ⟨k0, v0, req, _, hmiss, _, htrace⟩
    · exact ⟨ev, htrace, fun k v hmem => absurd hmem (hno k v)⟩
    · refine ⟨_, htrace, ?_⟩
      intro k v hmem
      simp only [List.mem_cons, List.mem_singleton, Event.cacheSet.injEq, reduceCtorEq,
        false_or, List.not_mem_nil, or_false] at hmem
      obtain ⟨rfl, rfl⟩ := hmem
      exact ⟨hmiss, by simp⟩
  · intro k
    exact (runCalls_write_once cqh hlaw k cs w w' hrun).1
  · intro k v hv
    exact (runCalls_write_once cqh hlaw k cs w w' hrun).2 v hv
  · intro b hb
    exact IsContractPaused_hit cqh w' b
      ((runCalls_write_once cqh hlaw keyIsPaused cs w w' hrun).2 _ hb).1
  · intro n hn
    exact GetCreditsPerEGLD_hit cqh w' n
      ((runCalls_write_once cqh hlaw keyCreditsPerEgld cs w w' hrun).2 _ hn).1

/-- Witness for C16: five calls over an empty list cache, with a transport that answers
`ok` with first byte 1. Each key is set once, by the first call that misses it, and the
two calls that follow hit. -/
theorem cache_entries_are_written_once_witness :
    runCalls (sampleHandler (okOutcome "ok" [[1]]))
        [Call.isContractPaused, Call.getCreditsPerEGLD, Call.isContractPaused,
         Call.getCredits 1, Call.getCreditsPerEGLD] (sampleWorld [])
        = some
            { cache := [("creditsPerEgld", Any.uint64 1), ("isPaused", Any.bool true)],
              chain := 3,
              trace := [Event.cacheGet "isPaused",
                Event.vmQuery ⟨"erd1qqqq", "isPaused", "erd1qqqq", "0", []⟩,
                Event.cacheSet "isPaused" (Any.bool true),
                Event.cacheGet "creditsPerEgld",
                Event.vmQuery ⟨"erd1qqqq", "getCreditsPerEgld", "erd1qqqq", "0", []⟩,
                Event.cacheSet "creditsPerEgld" (Any.uint64 1),
                Event.cacheGet "isPaused",
                Event.vmQuery ⟨"erd1qqqq", "getCredits", "erd1qqqq", "0", ["01"]⟩,
                Event.cacheGet "creditsPerEgld"] }
      ∧ (∀ k, setCount k
          [Event.cacheGet "isPaused",
            Event.vmQuery ⟨"erd1qqqq", "isPaused", "erd1qqqq", "0", []⟩,
            Event.cacheSet "isPaused" (Any.bool true),
            Event.cacheGet "creditsPerEgld",
            Event.vmQuery ⟨"erd1qqqq", "getCreditsPerEgld", "erd1qqqq", "0", []⟩,
            Event.cacheSet "creditsPerEgld" (Any.uint64 1),
            Event.cacheGet "isPaused",
            Event.vmQuery ⟨"erd1qqqq", "getCredits", "erd1qqqq", "0", ["01"]⟩,
            Event.cacheGet "creditsPerEgld"] ≤ setCount k [] + 1) := by
  have hrun : runCalls (sampleHandler (okOutcome "ok" [[1]]))
      [Call.isContractPaused, Call.getCreditsPerEGLD, Call.isContractPaused,
       Call.getCredits 1, Call.getCreditsPerEGLD] (sampleWorld [])
      = some
          { cache := [("creditsPerEgld", Any.uint64 1), ("isPaused", Any.bool true)],
            chain := 3,
            trace := [Event.cacheGet "isPaused",
              Event.vmQuery ⟨"erd1qqqq", "isPaused", "erd1qqqq", "0", []⟩,
              Event.cacheSet "isPaused" (Any.bool true),
              Event.cacheGet "creditsPerEgld",
              Event.vmQuery ⟨"erd1qqqq", "getCreditsPerEgld", "erd1qqqq", "0", []⟩,
              Event.cacheSet "creditsPerEgld" (Any.uint64 1),
              Event.cacheGet "isPaused",
              Event.vmQuery ⟨"erd1qqqq", "getCredits", "erd1qqqq", "0", ["01"]⟩,
              Event.cacheGet "creditsPerEgld"] } := by
    decide
  exact ⟨hrun,
    (cache_entries_are_written_once (sampleHandler (okOutcome "ok" [[1]]))
      listCacher_lastSetVisible _ (sampleWorld []) _ hrun).2.1⟩

/-- C17: cache hits never fail. Over a cache that returns the last value set, the predicate
`WellTyped` (a value present under `isPaused` is a boolean, a value present under
`creditsPerEgld` is an unsigned 64-bit integer) holds of a cache in which every `Get`
misses, is kept by every call of `IsContractPaused`, `GetCreditsPerEGLD` and `GetCredits`,
hence by every run, and under it a hit on either key returns the cached value: the type
assertion does not fail. -/
theorem cache_hits_never_fail {σ π : Type} (cqh : contractQueryHandler σ π)
    (hlaw : LastSetVisible cqh.cacher) :
    (∀ s, (∀ k, (cqh.cacher.Get s k).2 = false) → WellTyped cqh.cacher s)
      ∧ (∀ c w w1, WellTyped cqh.cacher w.cache → execCall cqh w c = some w1 →
          WellTyped cqh.cacher w1.cache)
      ∧ (∀ cs w w', WellTyped cqh.cacher w.cache → runCalls cqh cs w = some w' →
          WellTyped cqh.cacher w'.cache)
      ∧ (∀ w, WellTyped cqh.cacher w.cache → (cqh.cacher.Get w.cache keyIsPaused).2 = true →
          ∃ b, cqh.cacher.Get w.cache keyIsPaused = (Any.bool b, true)
            ∧ IsContractPaused cqh w = some ((b, none), afterHit w keyIsPaused))
      ∧ (∀ w, WellTyped cqh.cacher w.cache →
          (cqh.cacher.Get w.cache keyCreditsPerEgld).2 = true →
          ∃ n, n < 2 ^ 64 ∧ cqh.cacher.Get w.cache keyCreditsPerEgld = (Any.uint64 n, true)
            ∧ GetCreditsPerEGLD cqh w = some ((n, none), afterHit w keyCreditsPerEgld)) := by
  refine ⟨?_, ?_, ?_, ?_, ?_⟩
  · intro s hempty
    constructor
    · intro hfound
      rw [hempty keyIsPaused] at hfound
      cases hfound
    · intro hfound
      rw [hempty keyCreditsPerEgld] at hfound
      cases hfound
  · intro c w w1 hwt hc
    exact execCall_wellTyped cqh hlaw c w w1 hwt hc
  · intro cs w w' hwt hrun
    exact runCalls_wellTyped cqh hlaw cs w w' hwt hrun
  · intro w hwt hfound
    obtain ⟨b, hb⟩ := hwt.1 hfound
    have hget : cqh.cacher.Get w.cache keyIsPaused = (Any.bool b, true) :=
      Prod.ext hb hfound
    exact ⟨b, hget, IsContractPaused_hit cqh w b hget⟩
  · intro w hwt hfound
    obtain ⟨n, hn, hv⟩ := hwt.2 hfound
    have hget : cqh.cacher.Get w.cache keyCreditsPerEgld = (Any.uint64 n, true) :=
      Prod.ext hv hfound
    exact ⟨n, hn, hget, GetCreditsPerEGLD_hit cqh w n hget⟩

/-- Witness for C17: the empty list cache is well typed, it stays so after both keys have
been filled by a run, and the hit on `isPaused` that follows returns the cached `true`. -/
theorem cache_hits_never_fail_witness :
    WellTyped listCacher []
      ∧ WellTyped listCacher [("creditsPerEgld", Any.uint64 1), ("isPaused", Any.bool true)]
      ∧ ∃ b, listCacher.Get [("creditsPerEgld", Any.uint64 1), ("isPaused", Any.bool true)]
            keyIsPaused = (Any.bool b, true)
          ∧ IsContractPaused (sampleHandler (okOutcome "ok" [[1]]))
              (sampleWorld [("creditsPerEgld", Any.uint64 1), ("isPaused", Any.bool true)])
            = some ((b, none),
                afterHit
                  (sampleWorld [("creditsPerEgld", Any.uint64 1), ("isPaused", Any.bool true)])
                  keyIsPaused) := by
  have hall := cache_hits_never_fail (sampleHandler (okOutcome "ok" [[1]]))
    listCacher_lastSetVisible
  have hempty : WellTyped listCacher [] := hall.1 [] (fun _ => rfl)
  have hrun : runCalls (sampleHandler (okOutcome "ok" [[1]]))
      [Call.isContractPaused, Call.getCreditsPerEGLD] (sampleWorld [])
      = some
          { cache := [("creditsPerEgld", Any.uint64 1), ("isPaused", Any.bool true)],
            chain := 2,
            trace := [Event.cacheGet "isPaused",
              Event.vmQuery ⟨"erd1qqqq", "isPaused", "erd1qqqq", "0", []⟩,
              Event.cacheSet "isPaused" (Any.bool true),
              Event.cacheGet "creditsPerEgld",
              Event.vmQuery ⟨"erd1qqqq", "getCreditsPerEgld", "erd1qqqq", "0", []⟩,
              Event.cacheSet "creditsPerEgld" (Any.uint64 1)] } := by
    decide
  have hfilled : WellTyped listCacher
      [("creditsPerEgld", Any.uint64 1), ("isPaused", Any.bool true)] :=
    hall.2.2.1 _ (sampleWorld []) _ hempty hrun
  exact ⟨hempty, hfilled,
    hall.2.2.2.1
      (sampleWorld [("creditsPerEgld", Any.uint64 1), ("isPaused", Any.bool true)])
      hfilled (by decide)⟩

end process
